import Mathlib

/-!
Verification development for the webpush-backend campaign dispatch and
scheduling engine.  The definitions below are a shallow embedding of the
JavaScript source (src/server.js, src/scheduler.js): JS `Date` arithmetic is
modelled on the proleptic Gregorian calendar, the relational store as record
of lists, and the push transport / fallible store writes as per-subscriber
outcome oracles.
-/

/-! ## JS Date model

JavaScript `Date` mutators (`setDate`, `setMonth`, `setHours`, `setMinutes`)
normalise out-of-range components by carrying into the larger unit, on the
proleptic Gregorian calendar.  We model an instant as a normalised civil
date-time; `msec` is the milliseconds within the minute (seconds and
milliseconds combined), since the code zeroes both together and compares
full instants. -/

structure JsDate where
  year : Int
  month : Nat
  day : Nat
  hour : Nat
  minute : Nat
  msec : Nat
deriving DecidableEq, Repr

/-- Days since 1970-01-01 of the civil date (year, month (0-based), day);
`d` may be out of range (JS overflow semantics), it contributes linearly. -/
def daysFromCivil (y : Int) (m : Nat) (d : Int) : Int :=
  let y1 : Int := if m ≤ 1 then y - 1 else y
  let era : Int := Int.fdiv y1 400
  let yoe : Int := y1 - era * 400
  let mp : Nat := (m + 10) % 12
  let doy : Int := (153 * (mp : Int) + 2) / 5 + d - 1
  let doe : Int := yoe * 365 + yoe / 4 - yoe / 100 + doy
  era * 146097 + doe - 719468

/-- Inverse of `daysFromCivil`: civil (year, month (0-based), day) of a day
number. -/
def civilFromDays (z : Int) : Int × Nat × Nat :=
  let z1 := z + 719468
  let era : Int := Int.fdiv z1 146097
  let doe : Nat := (z1 - era * 146097).toNat
  let yoe : Nat := (doe - doe / 1460 + doe / 36524 - doe / 146096) / 365
  let doy : Nat := doe - (365 * yoe + yoe / 4 - yoe / 100)
  let mp : Nat := (5 * doy + 2) / 153
  let d : Nat := doy - (153 * mp + 2) / 5 + 1
  let m : Nat := if mp < 10 then mp + 2 else mp - 10
  let y : Int := (yoe : Int) + era * 400 + (if m ≤ 1 then 1 else 0)
  (y, m, d)

/-- Build the normalised date-time from possibly out-of-range month and day,
exactly as JS `Date` normalises them (month carries into year, then the day
offset is resolved on the calendar). -/
def normDate (y : Int) (m : Int) (d : Int) (hh mi ms : Nat) : JsDate :=
  let y2 := y + Int.fdiv m 12
  let m2 := (Int.emod m 12).toNat
  let c := civilFromDays (daysFromCivil y2 m2 d)
  ⟨c.1, c.2.1, c.2.2, hh, mi, ms⟩

def JsDate.setDate (dt : JsDate) (d : Int) : JsDate :=
  normDate dt.year (dt.month : Int) d dt.hour dt.minute dt.msec

def JsDate.setMonth (dt : JsDate) (m : Int) : JsDate :=
  normDate dt.year m (dt.day : Int) dt.hour dt.minute dt.msec

def JsDate.setHours (dt : JsDate) (h : Int) : JsDate :=
  normDate dt.year (dt.month : Int) ((dt.day : Int) + Int.fdiv h 24)
    (Int.emod h 24).toNat dt.minute dt.msec

def JsDate.setMinutes (dt : JsDate) (mi : Int) : JsDate :=
  let h : Int := (dt.hour : Int) + Int.fdiv mi 60
  normDate dt.year (dt.month : Int) ((dt.day : Int) + Int.fdiv h 24)
    (Int.emod h 24).toNat (Int.emod mi 60).toNat dt.msec

def JsDate.toMillis (dt : JsDate) : Int :=
  daysFromCivil dt.year dt.month (dt.day : Int) * 86400000 +
    (dt.hour : Int) * 3600000 + (dt.minute : Int) * 60000 + (dt.msec : Int)

/-- JS `<=` on two `Date`s. -/
def jsLe (a b : JsDate) : Bool := decide (a.toMillis ≤ b.toMillis)

/-- JS `getDay()`: 0 = Sunday (1970-01-01 was a Thursday, day 4). -/
def JsDate.getDay (dt : JsDate) : Nat :=
  (Int.emod (daysFromCivil dt.year dt.month (dt.day : Int) + 4) 7).toNat

/-- The source computes the month length as
`new Date(year, month + 1, 0).getDate()`; we embed that computation
verbatim. -/
def jsDaysInMonth (y : Int) (m : Nat) : Nat :=
  (normDate y ((m : Int) + 1) 0 0 0 0).day

/-! ## Recurrence calculator (`calculateNextScheduledTime`, src/server.js)

The rule's sub-fields go through `parseInt(x) || default` in the source: a
missing or non-numeric field (`parseInt` gives `NaN`) is modelled as `none`,
and the `||` default also replaces a parsed `0`. The `frequency` string is
switched on for `'daily' | 'weekly' | 'monthly'`; any other value (including
`'interval'`) falls through the `switch` with no case. -/

inductive Frequency
  | daily
  | weekly
  | monthly
  | other
deriving DecidableEq, Repr

structure RecurringSchedule where
  frequency : Frequency
  hour : Option Int
  minute : Option Int
  dayOfWeek : Option Int
  dayOfMonth : Option Int
deriving DecidableEq, Repr

/-- JS `parseInt(v) || d`: `NaN` (modelled `none`) and `0` are falsy. -/
def jsOr (v : Option Int) (d : Int) : Int :=
  match v with
  | none => d
  | some n => if n = 0 then d else n

def calculateNextScheduledTime (rule : RecurringSchedule) (baseDate : JsDate) : JsDate :=
  let n1 := baseDate.setHours (jsOr rule.hour 0)
  let n2 := n1.setMinutes (jsOr rule.minute 0)
  let nextDate : JsDate := { n2 with msec := 0 }
  match rule.frequency with
  | .daily =>
      if jsLe nextDate baseDate then nextDate.setDate ((nextDate.day : Int) + 1)
      else nextDate
  | .weekly =>
      let targetDay := jsOr rule.dayOfWeek 0
      let currentDay : Int := (nextDate.getDay : Int)
      let d0 := targetDay - currentDay
      let d1 := if d0 < 0 ∨ (d0 = 0 ∧ jsLe nextDate baseDate) then d0 + 7 else d0
      nextDate.setDate ((nextDate.day : Int) + d1)
  | .monthly =>
      let targetDate := jsOr rule.dayOfMonth 1
      let n4 := nextDate.setDate targetDate
      let n5 := if jsLe n4 baseDate then n4.setMonth ((n4.month : Int) + 1) else n4
      let dim : Int := (jsDaysInMonth n5.year n5.month : Int)
      n5.setDate (min targetDate dim)
  | .other => nextDate

/-! ## Data model (relational store)

Lists of rows stand for the tables; `nextDeliveryId` models the serial
primary key handed back by `INSERT ... RETURNING id`.  Campaign `status` and
`delivery_type` are the ad-hoc strings the source compares against. -/

def strScheduled : String := "scheduled"
def strRecurring : String := "recurring"
def strDraft : String := "draft"
def strSending : String := "sending"
def strCompleted : String := "completed"
def strActive : String := "active"
def strSent : String := "sent"
def msgInsertFailed : String := "delivery insert failed"
def msgUpdateFailed : String := "delivery update failed"

structure Site where
  id : Nat
  vapidPublicKey : Option String
  vapidPrivateKey : Option String
deriving DecidableEq, Repr

structure Campaign where
  id : Nat
  siteId : Nat
  status : String
  deliveryType : String
  scheduledAt : Option Int
  segmentId : Option Nat
  recurringSchedule : Option RecurringSchedule
  title : String
  body : String
  url : String
  iconUrl : Option String
  imageUrl : Option String
deriving DecidableEq, Repr

structure Subscriber where
  id : Nat
  siteId : Nat
  endpoint : String
  p256dhKey : String
  authKey : String
  isActive : Bool
deriving DecidableEq, Repr

inductive DeliveryStatus
  | queued
  | sent
  | failed
  | clicked
deriving DecidableEq, Repr

structure Delivery where
  id : Nat
  campaignId : Nat
  subscriberId : Nat
  status : DeliveryStatus
  sentAt : Option Nat
  errorMessage : Option String
deriving DecidableEq, Repr

structure StatsRow where
  campaignId : Nat
  date : Nat
  sentCount : Nat
  failedCount : Nat
  clickedCount : Nat
  uniqueClicks : Nat
  ctrBp : Option Nat
deriving DecidableEq, Repr

structure Db where
  sites : List Site
  campaigns : List Campaign
  subscribers : List Subscriber
  deliveries : List Delivery
  stats : List StatsRow
  segmentMembers : List (Nat × Nat)
  nextDeliveryId : Nat
deriving DecidableEq, Repr

/-! ## Per-subscriber environment

A dispatch's interaction with the outside world, per subscriber id: whether
the `queued`-row `INSERT` succeeds, the push transport's outcome
(`webpush.sendNotification` resolves, or rejects with an error carrying an
optional `statusCode`), and whether the `sent`-status `UPDATE` succeeds. -/

inductive PushOutcome
  | ok
  | err (statusCode : Option Nat) (message : String)
deriving DecidableEq, Repr

structure SubOutcome where
  insertOk : Bool
  push : PushOutcome
  sentUpdateOk : Bool
deriving DecidableEq, Repr

def pushFailed : PushOutcome → Bool
  | .ok => false
  | .err _ _ => true

def is410 : PushOutcome → Bool
  | .ok => false
  | .err c _ => c == some 410

/-- Observable side-effect events of a dispatch, in order of occurrence. -/
inductive Ev
  | insertQueued (subscriberId : Nat)
  | pushAttempt (subscriberId : Nat)
  | updateSent (subscriberId : Nat)
  | updateFailed (subscriberId : Nat)
  | deactivate (subscriberId : Nat)
  | insertSentRow (subscriberId : Nat)
  | insertFailedRow (subscriberId : Nat)
  | setStatus (campaignId : Nat) (status : String)
deriving DecidableEq, Repr

/-! ## Store operations -/

def updateDeliveryById (ds : List Delivery) (did : Nat) (f : Delivery → Delivery) :
    List Delivery :=
  ds.map fun d => if d.id == did then f d else d

def updateDeliveriesByPair (ds : List Delivery) (cid sid : Nat) (f : Delivery → Delivery) :
    List Delivery :=
  ds.map fun d => if d.campaignId == cid && d.subscriberId == sid then f d else d

def deactivateSubscriber (subs : List Subscriber) (sid : Nat) : List Subscriber :=
  subs.map fun s => if s.id == sid then { s with isActive := false } else s

def setCampaignStatus (cs : List Campaign) (cid : Nat) (st : String) : List Campaign :=
  cs.map fun c => if c.id == cid then { c with status := st } else c

def findCampaign (db : Db) (cid : Nat) : Option Campaign :=
  db.campaigns.find? fun c => c.id == cid

def findSite (db : Db) (sid : Nat) : Option Site :=
  db.sites.find? fun s => s.id == sid

/-- Modelled behaviour of `webpush.setVapidDetails`: it throws when a key is
missing (NULL) — the site lacks valid push credentials. -/
def vapidValid (s : Site) : Bool :=
  s.vapidPublicKey.isSome && s.vapidPrivateKey.isSome

/-- Target resolution of `sendCampaign` (src/scheduler.js): active
subscribers of the campaign's site, restricted to segment members when
`segment_id` is set. -/
def resolveTargets (db : Db) (c : Campaign) : List Subscriber :=
  db.subscribers.filter fun s =>
    s.siteId == c.siteId && s.isActive &&
      (match c.segmentId with
       | none => true
       | some g => db.segmentMembers.contains (g, s.id))

/-! ## Delivery executor, scheduler path (`SchedulerService.sendCampaign`) -/

structure DispatchSt where
  db : Db
  successCount : Nat
  failureCount : Nat
  trace : List Ev
deriving Repr

/-- One subscriber of `sendCampaign`'s fan-out: insert a `queued` delivery
row, attempt the push, update the row to `sent` on success; on any thrown
error, update the row (matched by campaign and subscriber) to `failed` with
the error message and, when the error's `statusCode` is 410, deactivate the
subscription.  Within a batch these run concurrently, but each touches only
its own delivery row, its own subscriber row and the two counters, so every
interleaving produces this state; the trace records the canonical order. -/
def processSub (env : Nat → SubOutcome) (today cid : Nat) (st : DispatchSt)
    (sub : Subscriber) : DispatchSt :=
  let o := env sub.id
  if o.insertOk then
    let did := st.db.nextDeliveryId
    let db1 : Db := { st.db with
      deliveries := st.db.deliveries ++ [⟨did, cid, sub.id, .queued, none, none⟩],
      nextDeliveryId := did + 1 }
    match o.push with
    | .ok =>
        if o.sentUpdateOk then
          let ds := updateDeliveryById db1.deliveries did
            (fun d => { d with status := .sent, sentAt := some today })
          { db := { db1 with deliveries := ds },
            successCount := st.successCount + 1,
            failureCount := st.failureCount,
            trace := st.trace ++ [.insertQueued sub.id, .pushAttempt sub.id, .updateSent sub.id] }
        else
          let ds := updateDeliveriesByPair db1.deliveries cid sub.id
            (fun d => { d with status := .failed, errorMessage := some msgUpdateFailed })
          { db := { db1 with deliveries := ds },
            successCount := st.successCount,
            failureCount := st.failureCount + 1,
            trace := st.trace ++ [.insertQueued sub.id, .pushAttempt sub.id, .updateFailed sub.id] }
    | .err code msg =>
        let ds := updateDeliveriesByPair db1.deliveries cid sub.id
          (fun d => { d with status := .failed, errorMessage := some msg })
        let db2 : Db := { db1 with deliveries := ds }
        if code == some 410 then
          { db := { db2 with subscribers := deactivateSubscriber db2.subscribers sub.id },
            successCount := st.successCount,
            failureCount := st.failureCount + 1,
            trace := st.trace ++ [.insertQueued sub.id, .pushAttempt sub.id,
              .updateFailed sub.id, .deactivate sub.id] }
        else
          { db := db2,
            successCount := st.successCount,
            failureCount := st.failureCount + 1,
            trace := st.trace ++ [.insertQueued sub.id, .pushAttempt sub.id, .updateFailed sub.id] }
  else
    let ds := updateDeliveriesByPair st.db.deliveries cid sub.id
      (fun d => { d with status := .failed, errorMessage := some msgInsertFailed })
    { db := { st.db with deliveries := ds },
      successCount := st.successCount,
      failureCount := st.failureCount + 1,
      trace := st.trace ++ [.updateFailed sub.id] }

/-- Fixed-size batching (`batchSize = 50`): within a batch attempts run
concurrently, batches execute sequentially.  The auxiliary fuel (the list's
length, always sufficient) makes the recursion structural. -/
def chunksOfAux {α : Type} (n : Nat) : Nat → List α → List (List α)
  | _, [] => []
  | 0, x :: xs => [x :: xs]
  | fuel + 1, x :: xs => ((x :: xs).take n) :: chunksOfAux n fuel ((x :: xs).drop n)

def chunks50 {α : Type} (l : List α) : List (List α) :=
  chunksOfAux 50 l.length l

/-- Stats aggregation (`SchedulerService.updateCampaignStats`): rebuild
today's stats row for the campaign from deliveries whose `sent_at` falls on
the current date; upsert on (campaign_id, date).  The `ctr` column only
appears in the `DO UPDATE` branch of the SQL, so a freshly inserted row
leaves it at its column default (`none` here).  `ctrBp` stores
`ROUND(clicked/sent*100, 2)` in hundredths of a percent. -/
def computeCtrBp (clicked sent : Nat) : Nat :=
  if sent > 0 then (clicked * 10000 * 2 + sent) / (2 * sent) else 0

def updateCampaignStats (db : Db) (today cid : Nat) : Db :=
  let rows := db.deliveries.filter fun d => d.campaignId == cid && d.sentAt == some today
  if rows.isEmpty then db
  else
    let sent := (rows.filter fun d => d.status == DeliveryStatus.sent).length
    let failed := (rows.filter fun d => d.status == DeliveryStatus.failed).length
    let clicked := (rows.filter fun d => d.status == DeliveryStatus.clicked).length
    let uniq := ((rows.filter fun d => d.status == DeliveryStatus.clicked).map
      (·.subscriberId)).dedup.length
    if db.stats.any fun r => r.campaignId == cid && r.date == today then
      { db with stats := db.stats.map fun r =>
          if r.campaignId == cid && r.date == today then
            { r with sentCount := sent, failedCount := failed, clickedCount := clicked,
                     uniqueClicks := uniq, ctrBp := some (computeCtrBp clicked sent) }
          else r }
    else
      { db with stats := db.stats ++ [⟨cid, today, sent, failed, clicked, uniq, none⟩] }

inductive SendErr
  | campaignNotFound
  | vapidConfigError
deriving DecidableEq, Repr

/-- The batched subscriber fan-out of `sendCampaign`. -/
def dispatchFold (db : Db) (env : Nat → SubOutcome) (today cid : Nat) (c : Campaign) :
    DispatchSt :=
  (chunks50 (resolveTargets db c)).foldl
    (fun acc batch => batch.foldl (processSub env today cid) acc) ⟨db, 0, 0, []⟩

/-- Final campaign status the scheduler-path executor assigns:
`'active'` for recurring campaigns, `'completed'` otherwise. -/
def finalStatusFor (c : Campaign) : String :=
  if c.deliveryType == strRecurring then strActive else strCompleted

/-- `SchedulerService.sendCampaign(campaignId)`: load campaign joined with
its site's credentials (`Campaign not found` when the join is empty),
configure VAPID (throws on missing keys), resolve targets, fan out in
batches of 50, set the final campaign status, refresh stats.  The returned
counts are the `successCount`/`failureCount` the function reports on
completion. -/
def sendCampaign (db : Db) (env : Nat → SubOutcome) (today cid : Nat) :
    Except SendErr (Db × Nat × Nat × List Ev) :=
  match findCampaign db cid with
  | none => .error .campaignNotFound
  | some campaign =>
    match findSite db campaign.siteId with
    | none => .error .campaignNotFound
    | some site =>
      if vapidValid site then
        let st := dispatchFold db env today cid campaign
        let db2 : Db := { st.db with
          campaigns := setCampaignStatus st.db.campaigns cid (finalStatusFor campaign) }
        let db3 := updateCampaignStats db2 today cid
        .ok (db3, st.successCount, st.failureCount,
          st.trace ++ [.setStatus cid (finalStatusFor campaign)])
      else .error .vapidConfigError

/-! ## Delivery executor, server path (`sendCampaignNotifications`,
src/server.js)

This path pushes first and only then inserts a delivery row, directly in its
terminal state (`sent` with timestamp, or `failed` with the error message);
there is no `queued` row and no 410 deactivation.  Afterwards, a
non-recurring campaign's status is set to `sent`. -/

structure SendCounts where
  success : Nat
  failed : Nat
  total : Nat
deriving DecidableEq, Repr

def processSubServer (env : Nat → SubOutcome) (today cid : Nat) (st : DispatchSt)
    (sub : Subscriber) : DispatchSt :=
  let o := env sub.id
  match o.push with
  | .ok =>
      if o.insertOk then
        { db := { st.db with
            deliveries := st.db.deliveries ++
              [⟨st.db.nextDeliveryId, cid, sub.id, .sent, some today, none⟩],
            nextDeliveryId := st.db.nextDeliveryId + 1 },
          successCount := st.successCount + 1,
          failureCount := st.failureCount,
          trace := st.trace ++ [.pushAttempt sub.id, .insertSentRow sub.id] }
      else
        { db := { st.db with
            deliveries := st.db.deliveries ++
              [⟨st.db.nextDeliveryId, cid, sub.id, .failed, none, some msgInsertFailed⟩],
            nextDeliveryId := st.db.nextDeliveryId + 1 },
          successCount := st.successCount,
          failureCount := st.failureCount + 1,
          trace := st.trace ++ [.pushAttempt sub.id, .insertFailedRow sub.id] }
  | .err _ msg =>
      { db := { st.db with
          deliveries := st.db.deliveries ++
            [⟨st.db.nextDeliveryId, cid, sub.id, .failed, none, some msg⟩],
          nextDeliveryId := st.db.nextDeliveryId + 1 },
        successCount := st.successCount,
        failureCount := st.failureCount + 1,
        trace := st.trace ++ [.pushAttempt sub.id, .insertFailedRow sub.id] }

/-- Target resolution of the server path: all active subscribers of the
campaign's site (no segment restriction in this path). -/
def serverTargets (db : Db) (c : Campaign) : List Subscriber :=
  db.subscribers.filter fun s => s.siteId == c.siteId && s.isActive

def serverFold (db : Db) (env : Nat → SubOutcome) (today : Nat) (c : Campaign) :
    DispatchSt :=
  (serverTargets db c).foldl (processSubServer env today c.id) ⟨db, 0, 0, []⟩

def sendCampaignNotifications (db : Db) (env : Nat → SubOutcome) (today : Nat)
    (campaign : Campaign) : Db × SendCounts × List Ev :=
  let st := serverFold db env today campaign
  if campaign.deliveryType == strRecurring then
    (st.db, ⟨st.successCount, st.failureCount, (serverTargets db campaign).length⟩, st.trace)
  else
    ({ st.db with campaigns := setCampaignStatus st.db.campaigns campaign.id strSent },
     ⟨st.successCount, st.failureCount, (serverTargets db campaign).length⟩,
     st.trace ++ [.setStatus campaign.id strSent])

/-! ## Campaign scheduler poll loops

`SchedulerService.checkScheduledCampaigns` (src/scheduler.js) selects due
one-shot campaigns with `ORDER BY scheduled_at ASC LIMIT 50` and, per
campaign, first runs `UPDATE campaigns SET status = 'sending' WHERE id = $1`
(matched by id only) before invoking `sendCampaign`.
`executeScheduledCampaigns` (src/server.js) selects due campaigns with
`status = 'draft'`, no ordering and no limit, and invokes
`sendCampaignNotifications` with no prior status transition. -/

def dueBy (now : Int) (c : Campaign) : Bool :=
  match c.scheduledAt with
  | some t => decide (t ≤ now)
  | none => false

def scheduledLe (a b : Campaign) : Prop :=
  a.scheduledAt.getD 0 ≤ b.scheduledAt.getD 0

instance : DecidableRel scheduledLe := fun a b =>
  inferInstanceAs (Decidable (a.scheduledAt.getD 0 ≤ b.scheduledAt.getD 0))

instance : IsTotal Campaign scheduledLe :=
  ⟨fun a b => Int.le_total (a.scheduledAt.getD 0) (b.scheduledAt.getD 0)⟩

instance : IsTrans Campaign scheduledLe :=
  ⟨fun _ _ _ hab hbc => le_trans hab hbc⟩

def selectDueScheduled (db : Db) (now : Int) : List Campaign :=
  ((db.campaigns.filter fun c =>
      c.status == strScheduled && c.deliveryType == strScheduled && dueBy now c).insertionSort
    scheduledLe).take 50

/-- The pickup update of `checkScheduledCampaigns`:
`UPDATE campaigns SET status = 'sending' WHERE id = $1` — filtered by id
alone.  Returns the updated store and the number of matched rows. -/
def markSending (db : Db) (cid : Nat) : Db × Nat :=
  ({ db with campaigns := setCampaignStatus db.campaigns cid strSending },
   (db.campaigns.filter fun c => c.id == cid).length)

def selectDueServer (db : Db) (now : Int) : List Campaign :=
  db.campaigns.filter fun c =>
    (c.deliveryType == strScheduled || c.deliveryType == strRecurring) &&
      c.status == strDraft && dueBy now c

/-! ## Direct scheduling (`SchedulerService.scheduleAt`)

A past-or-present target dispatches immediately.  A future target creates a
cron job from the target's minute/hour/day/month (cron months are 1-based)
and stores it in the `scheduledJobs` map under the campaign id, replacing
the previous map entry; the replaced job is not stopped.  When a job fires,
its callback dispatches, stops that job and deletes the map entry for its
campaign id. -/

structure CronJob where
  id : Nat
  campaignId : Nat
  minute : Nat
  hour : Nat
  day : Nat
  month : Nat
  stopped : Bool
deriving DecidableEq, Repr

structure SchedState where
  nextJobId : Nat
  jobs : List CronJob
  scheduledJobs : List (Nat × Nat)
deriving DecidableEq, Repr

/-- JS `Map.set`: replace the value under an existing key, else append. -/
def mapSet (m : List (Nat × Nat)) (k v : Nat) : List (Nat × Nat) :=
  if m.any fun p => p.1 == k then m.map (fun p => if p.1 == k then (k, v) else p)
  else m ++ [(k, v)]

def mapLookup (m : List (Nat × Nat)) (k : Nat) : Option Nat :=
  (m.find? fun p => p.1 == k).map (·.2)

inductive ScheduleEffect
  | dispatchedNow
  | armed (jobId : Nat)
deriving DecidableEq, Repr

def scheduleAt (st : SchedState) (now target : JsDate) (cid : Nat) :
    SchedState × ScheduleEffect :=
  if jsLe target now then (st, .dispatchedNow)
  else
    let job : CronJob := ⟨st.nextJobId, cid, target.minute, target.hour, target.day,
      target.month + 1, false⟩
    ({ nextJobId := st.nextJobId + 1,
       jobs := st.jobs ++ [job],
       scheduledJobs := mapSet st.scheduledJobs cid job.id },
     .armed job.id)

def fireJob (st : SchedState) (j : CronJob) : SchedState :=
  { st with
    jobs := st.jobs.map fun k => if k.id == j.id then { k with stopped := true } else k,
    scheduledJobs := st.scheduledJobs.filter fun p => !(p.1 == j.campaignId) }

/-- Jobs for a campaign that are still armed (created and never stopped):
each will still fire when its cron expression matches. -/
def armedJobsFor (st : SchedState) (cid : Nat) : List CronJob :=
  st.jobs.filter fun j => j.campaignId == cid && !j.stopped

/-! ## Trace predicates -/

/-- Checks that every push attempt for a subscriber is preceded by a
`queued` delivery-row insert for that subscriber. -/
def queuedBeforePushOk : List Ev → List Nat → Bool
  | [], _ => true
  | .insertQueued s :: rest, seen => queuedBeforePushOk rest (s :: seen)
  | .pushAttempt s :: rest, seen => seen.contains s && queuedBeforePushOk rest seen
  | _ :: rest, seen => queuedBeforePushOk rest seen

/-- Checks that every terminal delivery-row write for a subscriber comes
after a push attempt for that subscriber. -/
def terminalAfterPushOk : List Ev → List Nat → Bool
  | [], _ => true
  | .pushAttempt s :: rest, seen => terminalAfterPushOk rest (s :: seen)
  | .updateSent s :: rest, seen => seen.contains s && terminalAfterPushOk rest seen
  | .updateFailed s :: rest, seen => seen.contains s && terminalAfterPushOk rest seen
  | .insertSentRow s :: rest, seen => seen.contains s && terminalAfterPushOk rest seen
  | .insertFailedRow s :: rest, seen => seen.contains s && terminalAfterPushOk rest seen
  | _ :: rest, seen => terminalAfterPushOk rest seen

def hasPushEv (l : List Ev) : Bool :=
  l.any fun e => match e with | .pushAttempt _ => true | _ => false

def hasStatusEv (l : List Ev) : Bool :=
  l.any fun e => match e with | .setStatus _ _ => true | _ => false

/-- Checks that no campaign-status write happens before a later push
attempt: every status transition in the trace follows all pushes. -/
def noStatusBeforePush : List Ev → Bool
  | [] => true
  | .setStatus _ _ :: rest => !hasPushEv rest && noStatusBeforePush rest
  | _ :: rest => noStatusBeforePush rest

/-! ## Specification-side helper functions used in theorem statements -/

def okCountsSum (r : Except SendErr (Db × Nat × Nat × List Ev)) : Option Nat :=
  r.toOption.map fun p => p.2.1 + p.2.2.1

def okSubscribers (r : Except SendErr (Db × Nat × Nat × List Ev)) :
    Option (List Subscriber) :=
  r.toOption.map fun p => p.1.subscribers

def okDeliveryCountFor (cid : Nat) (r : Except SendErr (Db × Nat × Nat × List Ev)) :
    Option Nat :=
  r.toOption.map fun p => (p.1.deliveries.filter fun d => d.campaignId == cid).length

def okStatsFor (cid today : Nat) (r : Except SendErr (Db × Nat × Nat × List Ev)) :
    Option (Option StatsRow) :=
  r.toOption.map fun p => p.1.stats.find? fun s => s.campaignId == cid && s.date == today

def okCounts (r : Except SendErr (Db × Nat × Nat × List Ev)) : Option (Nat × Nat) :=
  r.toOption.map fun p => (p.2.1, p.2.2.1)

def okTrace (r : Except SendErr (Db × Nat × Nat × List Ev)) : Option (List Ev) :=
  r.toOption.map fun p => p.2.2.2

def okFindCampaign (cid : Nat) (r : Except SendErr (Db × Nat × Nat × List Ev)) :
    Option (Option Campaign) :=
  r.toOption.map fun p => findCampaign p.1 cid

/-- Deactivate every subscriber whose id occurs in `ids`. -/
def deactivateMany (subs : List Subscriber) (ids : List Nat) : List Subscriber :=
  subs.map fun u => if ids.contains u.id then { u with isActive := false } else u

/-- Ids of the targets whose push attempt fails with statusCode 410. -/
def ids410 (env : Nat → SubOutcome) (subs : List Subscriber) : List Nat :=
  (subs.filter fun s => is410 (env s.id).push).map Subscriber.id

/-- The delivery row a scheduler-path dispatch leaves for one subscriber
when its store writes succeed: a `sent` row stamped with today on push
success, else a `failed` row carrying the error message and no timestamp. -/
def expectedRow1 (env : Nat → SubOutcome) (today cid nid : Nat) (s : Subscriber) : Delivery :=
  match (env s.id).push with
  | .ok => ⟨nid, cid, s.id, .sent, some today, none⟩
  | .err _ msg => ⟨nid, cid, s.id, .failed, none, some msg⟩

/-- The delivery rows a scheduler-path dispatch appends when every store
write succeeds, with consecutive ids from `nid`. -/
def expectedRows (env : Nat → SubOutcome) (today cid : Nat) :
    Nat → List Subscriber → List Delivery
  | _, [] => []
  | nid, s :: rest => expectedRow1 env today cid nid s :: expectedRows env today cid (nid + 1) rest

/-- Canonical per-subscriber event block of the scheduler dispatch path. -/
def subTraceSched (env : Nat → SubOutcome) (s : Subscriber) : List Ev :=
  let o := env s.id
  if o.insertOk then
    match o.push with
    | .ok =>
        if o.sentUpdateOk then [.insertQueued s.id, .pushAttempt s.id, .updateSent s.id]
        else [.insertQueued s.id, .pushAttempt s.id, .updateFailed s.id]
    | .err c _ =>
        if c == some 410 then
          [.insertQueued s.id, .pushAttempt s.id, .updateFailed s.id, .deactivate s.id]
        else [.insertQueued s.id, .pushAttempt s.id, .updateFailed s.id]
  else [.updateFailed s.id]

/-- Canonical per-subscriber event block of the server dispatch path. -/
def subTraceServer (env : Nat → SubOutcome) (s : Subscriber) : List Ev :=
  let o := env s.id
  match o.push with
  | .ok =>
      if o.insertOk then [.pushAttempt s.id, .insertSentRow s.id]
      else [.pushAttempt s.id, .insertFailedRow s.id]
  | .err _ _ => [.pushAttempt s.id, .insertFailedRow s.id]

/-! ## Concrete fixtures

A site with valid credentials, one campaign, two active subscribers; the
push transport succeeds for subscriber 1 and reports 410 (gone) for
subscriber 2. -/

def exVapidPub : String := "BExamplePublicKey"
def exVapidPriv : String := "ExamplePrivateKey"
def exEndpoint1 : String := "https://push.example/ep1"
def exEndpoint2 : String := "https://push.example/ep2"
def exKeyP : String := "p256dh-key"
def exKeyA : String := "auth-key"
def exTitle : String := "title"
def exBody : String := "body"
def exUrl : String := "https://example.com"
def exGoneMsg : String := "Received unexpected response code"

def exSite : Site := ⟨1, some exVapidPub, some exVapidPriv⟩

def exCampaign : Campaign :=
  ⟨10, 1, strScheduled, strScheduled, some 100, none, none, exTitle, exBody, exUrl, none, none⟩

def exSub1 : Subscriber := ⟨1, 1, exEndpoint1, exKeyP, exKeyA, true⟩
def exSub2 : Subscriber := ⟨2, 1, exEndpoint2, exKeyP, exKeyA, true⟩

def exDb : Db := ⟨[exSite], [exCampaign], [exSub1, exSub2], [], [], [], 0⟩

def exEnv : Nat → SubOutcome := fun n =>
  if n == 2 then ⟨true, .err (some 410) exGoneMsg, true⟩ else ⟨true, .ok, true⟩

def okStatsFailedCount (cid today : Nat) (r : Except SendErr (Db × Nat × Nat × List Ev)) :
    Option (Option Nat) :=
  (okStatsFor cid today r).map fun o => o.map (·.failedCount)

def queuedRowsOf (db : Db) : List Delivery :=
  db.deliveries.filter fun d => d.status == DeliveryStatus.queued

/-! Further concrete fixtures for the individual claims. -/

def exSchedRun : Except SendErr (Db × Nat × Nat × List Ev) := sendCampaign exDb exEnv 0 10

def exServerRun : Db × SendCounts × List Ev := sendCampaignNotifications exDb exEnv 0 exCampaign

def exCampaignDone : Campaign :=
  ⟨11, 1, strCompleted, strScheduled, some 100, none, none, exTitle, exBody, exUrl, none, none⟩

def exDbDone : Db := ⟨[exSite], [exCampaignDone], [], [], [], [], 0⟩

def exC8a : Campaign :=
  ⟨21, 1, strDraft, strScheduled, some 100, none, none, exTitle, exBody, exUrl, none, none⟩

def exC8b : Campaign :=
  ⟨22, 1, strDraft, strScheduled, some 50, none, none, exTitle, exBody, exUrl, none, none⟩

def exDbPoll : Db := ⟨[exSite], [exC8a, exC8b], [], [], [], [], 0⟩

def exNow : JsDate := ⟨2026, 0, 1, 0, 0, 0⟩
def exT1 : JsDate := ⟨2026, 0, 2, 10, 30, 0⟩
def exT2 : JsDate := ⟨2026, 0, 3, 11, 45, 0⟩
def exSched0 : SchedState := ⟨0, [], []⟩
def exSched1 : SchedState := (scheduleAt exSched0 exNow exT1 7).1
def exSched2 : SchedState := (scheduleAt exSched1 exNow exT2 7).1

/-- Subscriber ids whose `queued` insert occurs in the trace, accumulated
onto `seen` (the scan state of `queuedBeforePushOk`). -/
def collectQueued : List Ev → List Nat → List Nat
  | [], seen => seen
  | .insertQueued s :: rest, seen => collectQueued rest (s :: seen)
  | _ :: rest, seen => collectQueued rest seen

/-- Subscriber ids whose push attempt occurs in the trace, accumulated onto
`seen` (the scan state of `terminalAfterPushOk`). -/
def collectPushed : List Ev → List Nat → List Nat
  | [], seen => seen
  | .pushAttempt s :: rest, seen => collectPushed rest (s :: seen)
  | _ :: rest, seen => collectPushed rest seen

/-! # Lemmas -/

theorem chunksOfAux_foldl {α β : Type} (g : β → α → β) :
    ∀ (fuel : Nat) (xs : List α) (init : β), xs.length ≤ fuel →
      (chunksOfAux 50 fuel xs).foldl (fun st batch => batch.foldl g st) init =
        xs.foldl g init := by
  intro fuel
  induction fuel with
  | zero =>
    intro xs init h
    cases xs with
    | nil => rfl
    | cons x rest => simp at h
  | succ n ih =>
    intro xs init h
    cases xs with
    | nil => rfl
    | cons x rest =>
      rw [chunksOfAux]
      simp only [List.foldl_cons]
      rw [ih ((x :: rest).drop 50) (List.foldl g init ((x :: rest).take 50))
        (by simp [List.length_drop] at h ⊢; omega)]
      rw [← List.foldl_append, List.take_append_drop, List.foldl_cons]

theorem chunks50_foldl {α β : Type} (g : β → α → β) (xs : List α) (init : β) :
    (chunks50 xs).foldl (fun st batch => batch.foldl g st) init = xs.foldl g init :=
  chunksOfAux_foldl g xs.length xs init (Nat.le_refl _)

theorem processSub_counts (env : Nat → SubOutcome) (today cid : Nat) (st : DispatchSt)
    (sub : Subscriber) :
    (processSub env today cid st sub).successCount +
      (processSub env today cid st sub).failureCount =
      st.successCount + st.failureCount + 1 := by
  unfold processSub
  cases h1 : (env sub.id).insertOk
  · simp [h1] <;> omega
  · cases h2 : (env sub.id).push with
    | ok =>
      cases h3 : (env sub.id).sentUpdateOk
      · simp [h1, h2, h3] <;> omega
      · simp [h1, h2, h3] <;> omega
    | err code msg =>
      by_cases h3 : code = some 410
      · simp [h1, h2, h3] <;> omega
      · simp [h1, h2, h3] <;> omega

theorem foldl_processSub_counts (env : Nat → SubOutcome) (today cid : Nat)
    (subs : List Subscriber) :
    ∀ (st : DispatchSt),
      (subs.foldl (processSub env today cid) st).successCount +
        (subs.foldl (processSub env today cid) st).failureCount =
        st.successCount + st.failureCount + subs.length := by
  induction subs with
  | nil => intro st; simp
  | cons s rest ih =>
    intro st
    simp only [List.foldl_cons, List.length_cons]
    rw [ih (processSub env today cid st s)]
    have h := processSub_counts env today cid st s
    omega

theorem processSubServer_counts (env : Nat → SubOutcome) (today cid : Nat) (st : DispatchSt)
    (sub : Subscriber) :
    (processSubServer env today cid st sub).successCount +
      (processSubServer env today cid st sub).failureCount =
      st.successCount + st.failureCount + 1 := by
  unfold processSubServer
  cases h2 : (env sub.id).push with
  | ok =>
    cases h1 : (env sub.id).insertOk
    · simp [h1, h2]; omega
    · simp [h1, h2]; omega
  | err code msg => simp [h2]; omega

theorem foldl_processSubServer_counts (env : Nat → SubOutcome) (today cid : Nat)
    (subs : List Subscriber) :
    ∀ (st : DispatchSt),
      (subs.foldl (processSubServer env today cid) st).successCount +
        (subs.foldl (processSubServer env today cid) st).failureCount =
        st.successCount + st.failureCount + subs.length := by
  induction subs with
  | nil => intro st; simp
  | cons s rest ih =>
    intro st
    simp only [List.foldl_cons, List.length_cons]
    rw [ih (processSubServer env today cid st s)]
    have h := processSubServer_counts env today cid st s
    omega

theorem dispatchFold_counts (db : Db) (env : Nat → SubOutcome) (today cid : Nat)
    (c : Campaign) :
    (dispatchFold db env today cid c).successCount +
      (dispatchFold db env today cid c).failureCount =
      (resolveTargets db c).length := by
  unfold dispatchFold
  rw [chunks50_foldl (processSub env today cid) (resolveTargets db c) ⟨db, 0, 0, []⟩]
  rw [foldl_processSub_counts env today cid (resolveTargets db c) ⟨db, 0, 0, []⟩]
  simp

theorem serverFold_counts (db : Db) (env : Nat → SubOutcome) (today : Nat) (c : Campaign) :
    (serverFold db env today c).successCount + (serverFold db env today c).failureCount =
      (serverTargets db c).length := by
  unfold serverFold
  rw [foldl_processSubServer_counts env today c.id (serverTargets db c) ⟨db, 0, 0, []⟩]
  simp

theorem processSub_preserves (env : Nat → SubOutcome) (today cid : Nat) (st : DispatchSt)
    (sub : Subscriber) :
    (processSub env today cid st sub).db.campaigns = st.db.campaigns ∧
    (processSub env today cid st sub).db.stats = st.db.stats ∧
    (processSub env today cid st sub).db.sites = st.db.sites ∧
    (processSub env today cid st sub).db.segmentMembers = st.db.segmentMembers := by
  unfold processSub
  cases h1 : (env sub.id).insertOk
  · simp [h1]
  · cases h2 : (env sub.id).push with
    | ok =>
      cases h3 : (env sub.id).sentUpdateOk
      · simp [h1, h2, h3]
      · simp [h1, h2, h3]
    | err code msg =>
      by_cases h3 : code = some 410
      · simp [h1, h2, h3]
      · simp [h1, h2, h3]

theorem foldl_processSub_preserves (env : Nat → SubOutcome) (today cid : Nat)
    (subs : List Subscriber) :
    ∀ (st : DispatchSt),
      (subs.foldl (processSub env today cid) st).db.campaigns = st.db.campaigns ∧
      (subs.foldl (processSub env today cid) st).db.stats = st.db.stats ∧
      (subs.foldl (processSub env today cid) st).db.sites = st.db.sites ∧
      (subs.foldl (processSub env today cid) st).db.segmentMembers = st.db.segmentMembers := by
  induction subs with
  | nil => intro st; simp
  | cons s rest ih =>
    intro st
    simp only [List.foldl_cons]
    have h1 := ih (processSub env today cid st s)
    have h2 := processSub_preserves env today cid st s
    exact ⟨h1.1.trans h2.1, h1.2.1.trans h2.2.1, h1.2.2.1.trans h2.2.2.1,
      h1.2.2.2.trans h2.2.2.2⟩

theorem dispatchFold_preserves (db : Db) (env : Nat → SubOutcome) (today cid : Nat)
    (c : Campaign) :
    (dispatchFold db env today cid c).db.campaigns = db.campaigns ∧
    (dispatchFold db env today cid c).db.stats = db.stats ∧
    (dispatchFold db env today cid c).db.sites = db.sites ∧
    (dispatchFold db env today cid c).db.segmentMembers = db.segmentMembers := by
  unfold dispatchFold
  rw [chunks50_foldl (processSub env today cid) (resolveTargets db c) ⟨db, 0, 0, []⟩]
  exact foldl_processSub_preserves env today cid (resolveTargets db c) ⟨db, 0, 0, []⟩

theorem processSubServer_preserves (env : Nat → SubOutcome) (today cid : Nat)
    (st : DispatchSt) (sub : Subscriber) :
    (processSubServer env today cid st sub).db.campaigns = st.db.campaigns ∧
    (processSubServer env today cid st sub).db.subscribers = st.db.subscribers ∧
    (processSubServer env today cid st sub).db.stats = st.db.stats := by
  unfold processSubServer
  cases h2 : (env sub.id).push with
  | ok =>
    cases h1 : (env sub.id).insertOk
    · simp [h1, h2]
    · simp [h1, h2]
  | err code msg => simp [h2]

theorem serverFold_preserves (db : Db) (env : Nat → SubOutcome) (today : Nat) (c : Campaign) :
    (serverFold db env today c).db.campaigns = db.campaigns ∧
    (serverFold db env today c).db.subscribers = db.subscribers ∧
    (serverFold db env today c).db.stats = db.stats := by
  unfold serverFold
  generalize hsubs : serverTargets db c = subs
  have main : ∀ (subs : List Subscriber) (st : DispatchSt),
      (subs.foldl (processSubServer env today c.id) st).db.campaigns = st.db.campaigns ∧
      (subs.foldl (processSubServer env today c.id) st).db.subscribers = st.db.subscribers ∧
      (subs.foldl (processSubServer env today c.id) st).db.stats = st.db.stats := by
    intro subs
    induction subs with
    | nil => intro st; simp
    | cons s rest ih =>
      intro st
      simp only [List.foldl_cons]
      have h1 := ih (processSubServer env today c.id st s)
      have h2 := processSubServer_preserves env today c.id st s
      exact ⟨h1.1.trans h2.1, h1.2.1.trans h2.2.1, h1.2.2.trans h2.2.2⟩
  exact main subs ⟨db, 0, 0, []⟩

theorem updateCampaignStats_preserves (db : Db) (today cid : Nat) :
    (updateCampaignStats db today cid).campaigns = db.campaigns ∧
    (updateCampaignStats db today cid).deliveries = db.deliveries ∧
    (updateCampaignStats db today cid).subscribers = db.subscribers := by
  unfold updateCampaignStats
  by_cases h1 : (db.deliveries.filter fun d => d.campaignId == cid && d.sentAt == some today).isEmpty = true
  · simp [h1]
  · by_cases h2 : (db.stats.any fun r => r.campaignId == cid && r.date == today) = true
    · simp [h1, h2]
    · simp [h1, h2]

theorem find_setCampaignStatus (l : List Campaign) (cid : Nat) (stt : String) (c : Campaign) :
    l.find? (fun x => x.id == cid) = some c →
    (setCampaignStatus l cid stt).find? (fun x => x.id == cid) =
      some { c with status := stt } := by
  induction l with
  | nil => intro h; simp [List.find?] at h
  | cons a rest ih =>
    intro h
    rw [List.find?_cons] at h
    have hg : setCampaignStatus (a :: rest) cid stt =
        (if (a.id == cid) = true then { a with status := stt } else a) ::
          setCampaignStatus rest cid stt := rfl
    rw [hg, List.find?_cons]
    cases ha : (a.id == cid) with
    | true =>
      rw [ha] at h
      simp only [] at h
      injection h with h'
      subst h'
      simp only [ha, if_true]
    | false =>
      rw [ha] at h
      simp only [] at h
      simp only [ha, Bool.false_eq_true, if_false]
      exact ih h

theorem sendCampaign_noCampaign (db : Db) (env : Nat → SubOutcome) (today cid : Nat)
    (h : findCampaign db cid = none) :
    sendCampaign db env today cid = .error .campaignNotFound := by
  unfold sendCampaign
  rw [h]

theorem sendCampaign_noSite (db : Db) (env : Nat → SubOutcome) (today cid : Nat)
    (c : Campaign) (hc : findCampaign db cid = some c) (hs : findSite db c.siteId = none) :
    sendCampaign db env today cid = .error .campaignNotFound := by
  unfold sendCampaign
  simp [hc, hs]

theorem sendCampaign_badVapid (db : Db) (env : Nat → SubOutcome) (today cid : Nat)
    (c : Campaign) (site : Site) (hc : findCampaign db cid = some c)
    (hs : findSite db c.siteId = some site) (hv : vapidValid site = false) :
    sendCampaign db env today cid = .error .vapidConfigError := by
  unfold sendCampaign
  simp [hc, hs, hv]

theorem sendCampaign_ok (db : Db) (env : Nat → SubOutcome) (today cid : Nat)
    (c : Campaign) (site : Site) (hc : findCampaign db cid = some c)
    (hs : findSite db c.siteId = some site) (hv : vapidValid site = true) :
    sendCampaign db env today cid =
      .ok (updateCampaignStats
            { (dispatchFold db env today cid c).db with
              campaigns := setCampaignStatus (dispatchFold db env today cid c).db.campaigns
                cid (finalStatusFor c) }
            today cid,
          (dispatchFold db env today cid c).successCount,
          (dispatchFold db env today cid c).failureCount,
          (dispatchFold db env today cid c).trace ++ [.setStatus cid (finalStatusFor c)]) := by
  unfold sendCampaign
  simp [hc, hs, hv]

theorem processSub_trace (env : Nat → SubOutcome) (today cid : Nat) (st : DispatchSt)
    (sub : Subscriber) :
    (processSub env today cid st sub).trace = st.trace ++ subTraceSched env sub := by
  unfold processSub subTraceSched
  cases h1 : (env sub.id).insertOk
  · simp [h1]
  · cases h2 : (env sub.id).push with
    | ok =>
      cases h3 : (env sub.id).sentUpdateOk
      · simp [h1, h2, h3]
      · simp [h1, h2, h3]
    | err code msg =>
      by_cases h3 : code = some 410
      · simp [h1, h2, h3]
      · simp [h1, h2, h3]

theorem foldl_processSub_trace (env : Nat → SubOutcome) (today cid : Nat)
    (subs : List Subscriber) :
    ∀ (st : DispatchSt),
      (subs.foldl (processSub env today cid) st).trace =
        st.trace ++ (subs.map (subTraceSched env)).join := by
  induction subs with
  | nil => intro st; simp
  | cons s rest ih =>
    intro st
    simp only [List.foldl_cons, List.map_cons, List.join_cons]
    rw [ih (processSub env today cid st s), processSub_trace]
    simp

theorem dispatchFold_trace (db : Db) (env : Nat → SubOutcome) (today cid : Nat)
    (c : Campaign) :
    (dispatchFold db env today cid c).trace =
      ((resolveTargets db c).map (subTraceSched env)).join := by
  unfold dispatchFold
  rw [chunks50_foldl (processSub env today cid) (resolveTargets db c) ⟨db, 0, 0, []⟩]
  rw [foldl_processSub_trace env today cid (resolveTargets db c) ⟨db, 0, 0, []⟩]
  simp

theorem processSubServer_trace (env : Nat → SubOutcome) (today cid : Nat) (st : DispatchSt)
    (sub : Subscriber) :
    (processSubServer env today cid st sub).trace = st.trace ++ subTraceServer env sub := by
  unfold processSubServer subTraceServer
  cases h2 : (env sub.id).push with
  | ok =>
    cases h1 : (env sub.id).insertOk
    · simp [h1, h2]
    · simp [h1, h2]
  | err code msg => simp [h2]

theorem foldl_processSubServer_trace (env : Nat → SubOutcome) (today cid : Nat)
    (subs : List Subscriber) :
    ∀ (st : DispatchSt),
      (subs.foldl (processSubServer env today cid) st).trace =
        st.trace ++ (subs.map (subTraceServer env)).join := by
  induction subs with
  | nil => intro st; simp
  | cons s rest ih =>
    intro st
    simp only [List.foldl_cons, List.map_cons, List.join_cons]
    rw [ih (processSubServer env today cid st s), processSubServer_trace]
    simp

theorem serverFold_trace (db : Db) (env : Nat → SubOutcome) (today : Nat) (c : Campaign) :
    (serverFold db env today c).trace =
      ((serverTargets db c).map (subTraceServer env)).join := by
  unfold serverFold
  rw [foldl_processSubServer_trace env today c.id (serverTargets db c) ⟨db, 0, 0, []⟩]
  simp

theorem queuedBeforePushOk_append (a : List Ev) :
    ∀ (b : List Ev) (seen : List Nat),
      queuedBeforePushOk (a ++ b) seen =
        (queuedBeforePushOk a seen && queuedBeforePushOk b (collectQueued a seen)) := by
  induction a with
  | nil => intro b seen; simp [queuedBeforePushOk, collectQueued]
  | cons e rest ih =>
    intro b seen
    cases e <;> simp [queuedBeforePushOk, collectQueued, ih, Bool.and_assoc]

theorem queuedBeforePushOk_subTraceSched (env : Nat → SubOutcome) (s : Subscriber)
    (seen : List Nat) : queuedBeforePushOk (subTraceSched env s) seen = true := by
  unfold subTraceSched
  cases h1 : (env s.id).insertOk
  · simp [h1, queuedBeforePushOk]
  · cases h2 : (env s.id).push with
    | ok =>
      cases h3 : (env s.id).sentUpdateOk
      · simp [h1, h2, h3, queuedBeforePushOk, List.contains_cons]
      · simp [h1, h2, h3, queuedBeforePushOk, List.contains_cons]
    | err code msg =>
      by_cases h3 : code = some 410
      · simp [h1, h2, h3, queuedBeforePushOk, List.contains_cons]
      · simp [h1, h2, h3, queuedBeforePushOk, List.contains_cons]

theorem queuedBeforePushOk_join (env : Nat → SubOutcome) (subs : List Subscriber) :
    ∀ (seen : List Nat),
      queuedBeforePushOk ((subs.map (subTraceSched env)).join) seen = true := by
  induction subs with
  | nil => intro seen; rfl
  | cons s rest ih =>
    intro seen
    simp only [List.map_cons, List.join_cons]
    rw [queuedBeforePushOk_append]
    simp [queuedBeforePushOk_subTraceSched, ih]

theorem terminalAfterPushOk_append (a : List Ev) :
    ∀ (b : List Ev) (seen : List Nat),
      terminalAfterPushOk (a ++ b) seen =
        (terminalAfterPushOk a seen && terminalAfterPushOk b (collectPushed a seen)) := by
  induction a with
  | nil => intro b seen; simp [terminalAfterPushOk, collectPushed]
  | cons e rest ih =>
    intro b seen
    cases e <;> simp [terminalAfterPushOk, collectPushed, ih, Bool.and_assoc]

theorem terminalAfterPushOk_subTraceSched (env : Nat → SubOutcome) (s : Subscriber)
    (seen : List Nat) (hins : (env s.id).insertOk = true) :
    terminalAfterPushOk (subTraceSched env s) seen = true := by
  unfold subTraceSched
  cases h2 : (env s.id).push with
  | ok =>
    cases h3 : (env s.id).sentUpdateOk
    · simp [hins, h2, h3, terminalAfterPushOk, List.contains_cons]
    · simp [hins, h2, h3, terminalAfterPushOk, List.contains_cons]
  | err code msg =>
    by_cases h3 : code = some 410
    · simp [hins, h2, h3, terminalAfterPushOk, List.contains_cons]
    · simp [hins, h2, h3, terminalAfterPushOk, List.contains_cons]

theorem terminalAfterPushOk_join (env : Nat → SubOutcome) (subs : List Subscriber)
    (hins : ∀ sid, (env sid).insertOk = true) :
    ∀ (seen : List Nat),
      terminalAfterPushOk ((subs.map (subTraceSched env)).join) seen = true := by
  induction subs with
  | nil => intro seen; rfl
  | cons s rest ih =>
    intro seen
    simp only [List.map_cons, List.join_cons]
    rw [terminalAfterPushOk_append]
    simp [terminalAfterPushOk_subTraceSched env s seen (hins s.id), ih]

theorem queuedBeforePushOk_setStatus (l : List Ev) (cid : Nat) (stt : String)
    (seen : List Nat) (h : queuedBeforePushOk l seen = true) :
    queuedBeforePushOk (l ++ [Ev.setStatus cid stt]) seen = true := by
  rw [queuedBeforePushOk_append]
  simp [h, queuedBeforePushOk]

theorem terminalAfterPushOk_setStatus (l : List Ev) (cid : Nat) (stt : String)
    (seen : List Nat) (h : terminalAfterPushOk l seen = true) :
    terminalAfterPushOk (l ++ [Ev.setStatus cid stt]) seen = true := by
  rw [terminalAfterPushOk_append]
  simp [h, terminalAfterPushOk]

theorem noStatusBeforePush_of_no_status (l : List Ev) :
    hasStatusEv l = false → noStatusBeforePush l = true := by
  induction l with
  | nil => intro h; rfl
  | cons e rest ih =>
    intro h
    cases e <;> simp [hasStatusEv, List.any_cons, noStatusBeforePush] at h ⊢ <;>
      exact ih (by simpa [hasStatusEv] using h)

theorem noStatusBeforePush_append_status (l : List Ev) (cid : Nat) (stt : String) :
    hasStatusEv l = false → noStatusBeforePush (l ++ [Ev.setStatus cid stt]) = true := by
  induction l with
  | nil => intro h; rfl
  | cons e rest ih =>
    intro h
    cases e <;> simp [hasStatusEv, List.any_cons, noStatusBeforePush] at h ⊢ <;>
      exact ih (by simpa [hasStatusEv] using h)

theorem hasStatusEv_subTraceServer (env : Nat → SubOutcome) (s : Subscriber) :
    hasStatusEv (subTraceServer env s) = false := by
  unfold subTraceServer
  cases h2 : (env s.id).push with
  | ok =>
    cases h1 : (env s.id).insertOk
    · simp [h1, h2, hasStatusEv]
    · simp [h1, h2, hasStatusEv]
  | err code msg => simp [h2, hasStatusEv]

theorem hasStatusEv_join_server (env : Nat → SubOutcome) (subs : List Subscriber) :
    hasStatusEv ((subs.map (subTraceServer env)).join) = false := by
  induction subs with
  | nil => rfl
  | cons s rest ih =>
    simp only [List.map_cons, List.join_cons]
    simp [hasStatusEv, List.any_append] at ih ⊢
    constructor
    · have := hasStatusEv_subTraceServer env s
      simp [hasStatusEv] at this
      exact this
    · exact ih

theorem map_ite_id {α : Type} (p : α → Bool) (f : α → α) (l : List α)
    (h : ∀ a ∈ l, p a = false) :
    l.map (fun a => if p a then f a else a) = l := by
  induction l with
  | nil => rfl
  | cons x xs ih =>
    simp only [List.map_cons]
    rw [h x (List.mem_cons_self x xs)]
    simp only [Bool.false_eq_true, if_false]
    rw [ih (fun a ha => h a (List.mem_cons_of_mem x ha))]

theorem map_congr_mem {α β : Type} (f g : α → β) (l : List α)
    (h : ∀ a ∈ l, f a = g a) : l.map f = l.map g := by
  induction l with
  | nil => rfl
  | cons x xs ih =>
    simp only [List.map_cons]
    rw [h x (List.mem_cons_self x xs), ih (fun a ha => h a (List.mem_cons_of_mem x ha))]

theorem updateDeliveryById_append_fresh (l : List Delivery) (r : Delivery) (did : Nat)
    (f : Delivery → Delivery) (hl : ∀ d ∈ l, (d.id == did) = false)
    (hr : (r.id == did) = true) :
    updateDeliveryById (l ++ [r]) did f = l ++ [f r] := by
  unfold updateDeliveryById
  rw [List.map_append]
  rw [map_ite_id (fun d => d.id == did) f l hl]
  simp only [List.map_cons, List.map_nil, hr, if_true]

theorem updateDeliveriesByPair_append_fresh (l : List Delivery) (r : Delivery)
    (cid sid : Nat) (f : Delivery → Delivery)
    (hl : ∀ d ∈ l, (d.campaignId == cid && d.subscriberId == sid) = false)
    (hr : (r.campaignId == cid && r.subscriberId == sid) = true) :
    updateDeliveriesByPair (l ++ [r]) cid sid f = l ++ [f r] := by
  unfold updateDeliveriesByPair
  rw [List.map_append]
  rw [map_ite_id (fun d => d.campaignId == cid && d.subscriberId == sid) f l hl]
  simp only [List.map_cons, List.map_nil, hr, if_true]

theorem updateDeliveriesByPair_id (l : List Delivery) (cid sid : Nat)
    (f : Delivery → Delivery)
    (hl : ∀ d ∈ l, (d.campaignId == cid && d.subscriberId == sid) = false) :
    updateDeliveriesByPair l cid sid f = l := by
  unfold updateDeliveriesByPair
  exact map_ite_id (fun d => d.campaignId == cid && d.subscriberId == sid) f l hl

theorem deactivateMany_nil (subs : List Subscriber) : deactivateMany subs [] = subs := by
  unfold deactivateMany
  simp

theorem deactivateMany_deactivateSubscriber (base : List Subscriber) (i : Nat)
    (ids : List Nat) :
    deactivateMany (deactivateSubscriber base i) ids = deactivateMany base (i :: ids) := by
  unfold deactivateMany deactivateSubscriber
  rw [List.map_map]
  apply map_congr_mem
  intro u _
  by_cases hui : u.id = i
  · by_cases hmem : u.id ∈ ids
    · simp [Function.comp, List.contains_cons, hui, hmem, List.elem_iff]
    · simp [Function.comp, List.contains_cons, hui, hmem, List.elem_iff]
  · by_cases hmem : u.id ∈ ids
    · simp [Function.comp, List.contains_cons, hui, hmem, List.elem_iff]
    · simp [Function.comp, List.contains_cons, hui, hmem, List.elem_iff]

theorem length_filter_not {α : Type} (p : α → Bool) (l : List α) :
    (l.filter fun a => !(p a)).length + (l.filter p).length = l.length := by
  induction l with
  | nil => rfl
  | cons x xs ih =>
    cases h : p x <;> simp [List.filter_cons, h] <;> omega

theorem filter_congr_mem {α : Type} (p q : α → Bool) (l : List α)
    (h : ∀ a ∈ l, p a = q a) : l.filter p = l.filter q := by
  induction l with
  | nil => rfl
  | cons x xs ih =>
    have hx := h x (List.mem_cons_self x xs)
    have hrest := ih (fun a ha => h a (List.mem_cons_of_mem x ha))
    cases hq : q x
    · rw [List.filter_cons, List.filter_cons, hx, hq, hrest]
    · rw [List.filter_cons, List.filter_cons, hx, hq, hrest]

theorem any_eq_false_of {α : Type} (p : α → Bool) (l : List α)
    (h : ∀ a ∈ l, p a = false) : l.any p = false := by
  induction l with
  | nil => rfl
  | cons x xs ih =>
    simp [List.any_cons, h x (List.mem_cons_self x xs),
      ih (fun a ha => h a (List.mem_cons_of_mem x ha))]

theorem find?_append_of_none {α : Type} (p : α → Bool) (l1 l2 : List α)
    (h : l1.find? p = none) : (l1 ++ l2).find? p = l2.find? p := by
  induction l1 with
  | nil => rfl
  | cons x xs ih =>
    rw [List.find?_cons] at h
    cases hp : p x
    · rw [hp] at h
      simp only [] at h
      rw [List.cons_append, List.find?_cons, hp]
      exact ih h
    · rw [hp] at h
      simp at h

theorem processSub_spec_ok (env : Nat → SubOutcome) (today cid : Nat) (st : DispatchSt)
    (s : Subscriber) (hins : (env s.id).insertOk = true)
    (hsent : (env s.id).sentUpdateOk = true)
    (hfresh : ∀ d ∈ st.db.deliveries, (d.campaignId == cid && d.subscriberId == s.id) = false)
    (hids : ∀ d ∈ st.db.deliveries, d.id < st.db.nextDeliveryId) :
    (processSub env today cid st s).db.deliveries =
        st.db.deliveries ++ [expectedRow1 env today cid st.db.nextDeliveryId s] ∧
      (processSub env today cid st s).db.subscribers =
        (if is410 (env s.id).push then deactivateSubscriber st.db.subscribers s.id
         else st.db.subscribers) ∧
      (processSub env today cid st s).db.nextDeliveryId = st.db.nextDeliveryId + 1 ∧
      (processSub env today cid st s).successCount =
        st.successCount + (if pushFailed (env s.id).push then 0 else 1) ∧
      (processSub env today cid st s).failureCount =
        st.failureCount + (if pushFailed (env s.id).push then 1 else 0) := by
  have hids' : ∀ d ∈ st.db.deliveries, (d.id == st.db.nextDeliveryId) = false := by
    intro d hd
    exact beq_eq_false_iff_ne.mpr (Nat.ne_of_lt (hids d hd))
  unfold processSub
  cases h2 : (env s.id).push with
  | ok =>
    simp only [hins, hsent, h2, if_true]
    rw [updateDeliveryById_append_fresh st.db.deliveries _ st.db.nextDeliveryId _ hids'
      (by simp)]
    simp [expectedRow1, h2, is410, pushFailed]
  | err code msg =>
    simp only [hins, h2, if_true]
    rw [updateDeliveriesByPair_append_fresh st.db.deliveries _ cid s.id _ hfresh (by simp)]
    by_cases h3 : code = some 410
    · simp [expectedRow1, h2, is410, pushFailed, h3]
    · simp [expectedRow1, h2, is410, pushFailed, h3]

theorem foldl_processSub_spec (env : Nat → SubOutcome) (today cid : Nat) :
    ∀ (subs : List Subscriber) (st : DispatchSt),
      (∀ s ∈ subs, (env s.id).insertOk = true ∧ (env s.id).sentUpdateOk = true) →
      (subs.map Subscriber.id).Nodup →
      (∀ d ∈ st.db.deliveries, ∀ s ∈ subs,
        (d.campaignId == cid && d.subscriberId == s.id) = false) →
      (∀ d ∈ st.db.deliveries, d.id < st.db.nextDeliveryId) →
      (subs.foldl (processSub env today cid) st).db.deliveries =
          st.db.deliveries ++ expectedRows env today cid st.db.nextDeliveryId subs ∧
        (subs.foldl (processSub env today cid) st).db.subscribers =
          deactivateMany st.db.subscribers (ids410 env subs) ∧
        (subs.foldl (processSub env today cid) st).db.nextDeliveryId =
          st.db.nextDeliveryId + subs.length ∧
        (subs.foldl (processSub env today cid) st).successCount =
          st.successCount + (subs.filter fun s => !(pushFailed (env s.id).push)).length ∧
        (subs.foldl (processSub env today cid) st).failureCount =
          st.failureCount + (subs.filter fun s => pushFailed (env s.id).push).length := by
  intro subs
  induction subs with
  | nil =>
    intro st _ _ _ _
    simp [expectedRows, ids410, deactivateMany_nil]
  | cons s rest ih =>
    intro st henv hnodup hfresh hids
    obtain ⟨hins, hsent⟩ := henv s (List.mem_cons_self s rest)
    obtain ⟨hdel, hsub, hnid, hsc, hfc⟩ := processSub_spec_ok env today cid st s hins hsent
      (fun d hd => hfresh d hd s (List.mem_cons_self s rest)) hids
    have hrow_sid : (expectedRow1 env today cid st.db.nextDeliveryId s).subscriberId = s.id := by
      unfold expectedRow1
      cases (env s.id).push <;> rfl
    have hrow_id : (expectedRow1 env today cid st.db.nextDeliveryId s).id =
        st.db.nextDeliveryId := by
      unfold expectedRow1
      cases (env s.id).push <;> rfl
    have henv' : ∀ x ∈ rest, (env x.id).insertOk = true ∧ (env x.id).sentUpdateOk = true :=
      fun x hx => henv x (List.mem_cons_of_mem s hx)
    have hnodup' : (rest.map Subscriber.id).Nodup := (List.nodup_cons.mp hnodup).2
    have hsid : s.id ∉ rest.map Subscriber.id := (List.nodup_cons.mp hnodup).1
    have hfresh' : ∀ d ∈ (processSub env today cid st s).db.deliveries, ∀ x ∈ rest,
        (d.campaignId == cid && d.subscriberId == x.id) = false := by
      intro d hd x hx
      rw [hdel] at hd
      rcases List.mem_append.mp hd with h | h
      · exact hfresh d h x (List.mem_cons_of_mem s hx)
      · have hd' := List.mem_singleton.mp h
        subst hd'
        have hx_ne : x.id ≠ s.id := by
          intro hcontra
          exact hsid (hcontra ▸ List.mem_map_of_mem Subscriber.id hx)
        have hbe : ((expectedRow1 env today cid st.db.nextDeliveryId s).subscriberId == x.id)
            = false := by
          rw [hrow_sid]
          exact beq_eq_false_iff_ne.mpr (fun hc => hx_ne hc.symm)
        simp [hbe]
    have hids' : ∀ d ∈ (processSub env today cid st s).db.deliveries,
        d.id < (processSub env today cid st s).db.nextDeliveryId := by
      intro d hd
      rw [hdel] at hd
      rw [hnid]
      rcases List.mem_append.mp hd with h | h
      · exact Nat.lt_trans (hids d h) (Nat.lt_succ_self _)
      · have hd' := List.mem_singleton.mp h
        subst hd'
        rw [hrow_id]
        exact Nat.lt_succ_self _
    obtain ⟨rdel, rsub, rnid, rsc, rfc⟩ := ih (processSub env today cid st s) henv' hnodup'
      hfresh' hids'
    simp only [List.foldl_cons]
    refine ⟨?_, ?_, ?_, ?_, ?_⟩
    · rw [rdel, hdel, hnid, List.append_assoc, List.singleton_append]
      rfl
    · rw [rsub, hsub]
      by_cases h4 : is410 (env s.id).push = true
      · rw [if_pos h4, deactivateMany_deactivateSubscriber]
        congr 1
        simp [ids410, List.filter_cons, h4]
      · have h4' : is410 (env s.id).push = false := by
          cases hb : is410 (env s.id).push
          · rfl
          · exact absurd hb h4
        rw [if_neg (by rw [h4']; exact Bool.false_ne_true)]
        congr 1
        simp [ids410, List.filter_cons, h4']
    · rw [rnid, hnid]
      simp
      omega
    · rw [rsc, hsc]
      by_cases hp : pushFailed (env s.id).push = true
      · simp [List.filter_cons, hp]
        try omega
      · have hp' : pushFailed (env s.id).push = false := by
          cases hb : pushFailed (env s.id).push
          · rfl
          · exact absurd hb hp
        simp [List.filter_cons, hp']
        try omega
    · rw [rfc, hfc]
      by_cases hp : pushFailed (env s.id).push = true
      · simp [List.filter_cons, hp]
        try omega
      · have hp' : pushFailed (env s.id).push = false := by
          cases hb : pushFailed (env s.id).push
          · rfl
          · exact absurd hb hp
        simp [List.filter_cons, hp']
        try omega

theorem expectedRows_length (env : Nat → SubOutcome) (today cid : Nat) :
    ∀ (subs : List Subscriber) (nid : Nat),
      (expectedRows env today cid nid subs).length = subs.length := by
  intro subs
  induction subs with
  | nil => intro nid; rfl
  | cons s rest ih =>
    intro nid
    rw [expectedRows]
    simp [ih]

theorem expectedRows_mem_shape (env : Nat → SubOutcome) (today cid : Nat) :
    ∀ (subs : List Subscriber) (nid : Nat) (d : Delivery),
      d ∈ expectedRows env today cid nid subs →
      d.campaignId = cid ∧
        ((d.status = DeliveryStatus.sent ∧ d.sentAt = some today) ∨
          (d.status = DeliveryStatus.failed ∧ d.sentAt = none)) := by
  intro subs
  induction subs with
  | nil => intro nid d hd; simp [expectedRows] at hd
  | cons s rest ih =>
    intro nid d hd
    rw [expectedRows] at hd
    rcases List.mem_cons.mp hd with h | h
    · subst h
      unfold expectedRow1
      cases h2 : (env s.id).push with
      | ok => exact ⟨rfl, Or.inl ⟨rfl, rfl⟩⟩
      | err code msg => exact ⟨rfl, Or.inr ⟨rfl, rfl⟩⟩
    · exact ih (nid + 1) d h

theorem expectedRows_today_filter_len (env : Nat → SubOutcome) (today cid : Nat) :
    ∀ (subs : List Subscriber) (nid : Nat),
      ((expectedRows env today cid nid subs).filter
          (fun d => d.campaignId == cid && d.sentAt == some today)).length =
        (subs.filter fun s => !(pushFailed (env s.id).push)).length := by
  intro subs
  induction subs with
  | nil => intro nid; rfl
  | cons s rest ih =>
    intro nid
    rw [expectedRows]
    cases h2 : (env s.id).push with
    | ok => simp [List.filter_cons, expectedRow1, h2, pushFailed, ih]
    | err code msg => simp [List.filter_cons, expectedRow1, h2, pushFailed, ih]

theorem updateCampaignStats_find (db : Db) (today cid : Nat)
    (hstats : ∀ r ∈ db.stats, (r.campaignId == cid && r.date == today) = false) :
    ((updateCampaignStats db today cid).stats.find?
        fun r => r.campaignId == cid && r.date == today) =
      (if (db.deliveries.filter fun d => d.campaignId == cid && d.sentAt == some today).isEmpty
       then none
       else some ⟨cid, today,
         ((db.deliveries.filter fun d => d.campaignId == cid && d.sentAt == some today).filter
             fun d => d.status == DeliveryStatus.sent).length,
         ((db.deliveries.filter fun d => d.campaignId == cid && d.sentAt == some today).filter
             fun d => d.status == DeliveryStatus.failed).length,
         ((db.deliveries.filter fun d => d.campaignId == cid && d.sentAt == some today).filter
             fun d => d.status == DeliveryStatus.clicked).length,
         (((db.deliveries.filter fun d => d.campaignId == cid && d.sentAt == some today).filter
               fun d => d.status == DeliveryStatus.clicked).map (·.subscriberId)).dedup.length,
         none⟩) := by
  have hnone : db.stats.find? (fun r => r.campaignId == cid && r.date == today) = none :=
    List.find?_eq_none.mpr (fun r hr => by simp [hstats r hr])
  unfold updateCampaignStats
  by_cases he : (db.deliveries.filter
      fun d => d.campaignId == cid && d.sentAt == some today).isEmpty = true
  · simp only [he, if_true]
    rw [hnone]
  · have hany : (db.stats.any fun r => r.campaignId == cid && r.date == today) = false :=
      any_eq_false_of _ _ hstats
    simp only [he, hany, Bool.false_eq_true, if_false]
    rw [find?_append_of_none _ _ _ hnone]
    rw [List.find?_cons]
    simp [he]

/-! # Claims -/

/-- C1: the spec claims `nextFireTime` for a monthly rule clamps an
oversized `day_of_month` to the last day of the resolved month and never
rolls into the following month.  The code intends this (its comment says
"adjust to the last day when past month-end") but calls `setDate(31)` before
the clamp: from reference 2026-02-10 09:00 with `day_of_month = 31`,
February 31 overflows to March 3, the clamp then applies to March, and the
result is 2026-03-31 09:00 — not the last day of February (2026-02-28
09:00). -/
theorem monthlyClampFailure :
    calculateNextScheduledTime ⟨.monthly, some 9, none, none, some 31⟩ ⟨2026, 1, 10, 9, 0, 0⟩ =
        ⟨2026, 2, 31, 9, 0, 0⟩ ∧
      (calculateNextScheduledTime ⟨.monthly, some 9, none, none, some 31⟩
          ⟨2026, 1, 10, 9, 0, 0⟩).month ≠ 1 := by
  constructor
  · rfl
  · decide

/-- C9: `nextFireTime` (`calculateNextScheduledTime`) is a total pure
function, and a rule whose sub-fields are all missing or malformed
(`parseInt` yields `NaN`, modelled `none`) computes exactly the same fire
time as the rule with the documented defaults hour=0, minute=0,
day_of_week=0, day_of_month=1 spelled out — for every frequency and every
reference time. -/
theorem nextFireTimeDefaults (f : Frequency) (base : JsDate) :
    calculateNextScheduledTime ⟨f, none, none, none, none⟩ base =
      calculateNextScheduledTime ⟨f, some 0, some 0, some 0, some 1⟩ base := by
  cases f <;> rfl

/-- C8 (amended): the scheduler.js poll (`checkScheduledCampaigns`) selects
at most 50 due campaigns per tick, in ascending `scheduled_at` order
(`ORDER BY scheduled_at ASC LIMIT 50`); the claim's cap and ordering do not
hold for the server.js poll, which the counterexample shows. -/
theorem schedulerPollBoundedSorted (db : Db) (now : Int) :
    (selectDueScheduled db now).length ≤ 50 ∧
      (selectDueScheduled db now).Sorted scheduledLe := by
  constructor
  · exact List.length_take_le 50 _
  · exact List.Pairwise.sublist (List.take_sublist 50 _)
      (List.sorted_insertionSort scheduledLe _)

/-- C8 counterexample: the server.js poll (`executeScheduledCampaigns`)
applies no ordering (and no cap): with two due campaigns stored with
`scheduled_at` 100 before 50, it processes them in store order, which is not
ascending. -/
theorem serverPollUnordered :
    selectDueServer exDbPoll 200 = [exC8a, exC8b] ∧ ¬ scheduledLe exC8a exC8b := by
  constructor
  · decide
  · decide

/-- C3 counterexample: the pickup update of `checkScheduledCampaigns` is
`UPDATE campaigns SET status = 'sending' WHERE id = $1` — it matches on id
alone.  Applied to a campaign whose status is `'completed'` (not the
pending status `'scheduled'`), it still matches one row and overwrites the
status, contradicting the claim that the update takes effect only when the
current status equals the expected pending status. -/
theorem markSendingUnconditional :
    exCampaignDone.status ≠ strScheduled ∧
      (markSending exDbDone 11).2 = 1 ∧
      findCampaign (markSending exDbDone 11).1 11 =
        some { exCampaignDone with status := strSending } := by
  refine ⟨by decide, by decide, by decide⟩

/-- C3 (amended): a due campaign is selected by the scheduler.js poll only
while its status is the pending status `'scheduled'` (and it is due); on
pickup the status is set to `'sending'` before the send is invoked, but the
update is keyed on id alone — it applies to whatever the current status is
and its matched-row count (at least one whenever the campaign exists) is
never checked; the server.js poll path performs no status transition before
any push send (every status write in its dispatch trace follows all
pushes). -/
theorem pickupStatusDiscipline :
    (∀ (db : Db) (now : Int) (c : Campaign), c ∈ selectDueScheduled db now →
        c.status = strScheduled ∧ c.deliveryType = strScheduled ∧ dueBy now c = true) ∧
      (∀ (db : Db) (cid : Nat) (c0 : Campaign), findCampaign db cid = some c0 →
        findCampaign (markSending db cid).1 cid = some { c0 with status := strSending } ∧
          1 ≤ (markSending db cid).2) ∧
      (∀ (db : Db) (env : Nat → SubOutcome) (today : Nat) (c : Campaign),
        noStatusBeforePush (sendCampaignNotifications db env today c).2.2 = true) := by
  refine ⟨?_, ?_, ?_⟩
  · intro db now c hc
    have h1 : c ∈ (db.campaigns.filter fun c => c.status == strScheduled &&
        c.deliveryType == strScheduled && dueBy now c).insertionSort scheduledLe :=
      (List.take_sublist 50 _).subset hc
    have h2 : c ∈ db.campaigns.filter fun c => c.status == strScheduled &&
        c.deliveryType == strScheduled && dueBy now c :=
      (List.perm_insertionSort scheduledLe _).mem_iff.mp h1
    have h3 := (List.mem_filter.mp h2).2
    simp only [Bool.and_eq_true, beq_iff_eq] at h3
    exact ⟨h3.1.1, h3.1.2, h3.2⟩
  · intro db cid c0 h0
    have h0' : db.campaigns.find? (fun c => c.id == cid) = some c0 := h0
    constructor
    · exact find_setCampaignStatus db.campaigns cid strSending c0 h0'
    · have hmem : c0 ∈ db.campaigns := List.mem_of_find?_eq_some h0'
      have hpred := List.find?_some h0'
      have : c0 ∈ db.campaigns.filter fun c => c.id == cid :=
        List.mem_filter.mpr ⟨hmem, hpred⟩
      have hne : db.campaigns.filter (fun c => c.id == cid) ≠ [] :=
        List.ne_nil_of_mem this
      have := List.length_pos.mpr hne
      unfold markSending
      omega
  · intro db env today c
    unfold sendCampaignNotifications
    by_cases hrec : (c.deliveryType == strRecurring) = true
    · simp only [hrec, if_true]
      rw [serverFold_trace]
      exact noStatusBeforePush_of_no_status _ (hasStatusEv_join_server env _)
    · have hrec' : (c.deliveryType == strRecurring) = false := by
        cases hb : (c.deliveryType == strRecurring)
        · rfl
        · exact absurd hb hrec
      simp only [hrec', Bool.false_eq_true, if_false]
      rw [serverFold_trace]
      exact noStatusBeforePush_append_status _ _ _ (hasStatusEv_join_server env _)

theorem pickupStatusDisciplineWitness :
    (exCampaign.status = strScheduled ∧ exCampaign.deliveryType = strScheduled ∧
        dueBy 200 exCampaign = true) ∧
      findCampaign (markSending exDbDone 11).1 11 =
        some { exCampaignDone with status := strSending } ∧
      1 ≤ (markSending exDbDone 11).2 :=
  ⟨pickupStatusDiscipline.1 exDb 200 exCampaign (by decide),
   pickupStatusDiscipline.2.1 exDbDone 11 exCampaignDone (by decide)⟩

theorem mapLookup_mapSet (m : List (Nat × Nat)) (k v : Nat) :
    mapLookup (mapSet m k v) k = some v := by
  unfold mapSet
  by_cases h : (m.any fun p => p.1 == k) = true
  · rw [if_pos h]
    induction m with
    | nil => simp at h
    | cons p rest ih =>
      rw [List.map_cons]
      by_cases hp : (p.1 == k) = true
      · simp only [hp, if_true]
        unfold mapLookup
        rw [List.find?_cons]
        simp
      · have hp' : (p.1 == k) = false := by
          cases hb : (p.1 == k)
          · rfl
          · exact absurd hb hp
        have h2 : (rest.any fun p => p.1 == k) = true := by
          rw [List.any_cons, hp'] at h
          simpa using h
        simp only [hp', Bool.false_eq_true, if_false]
        unfold mapLookup
        rw [List.find?_cons, hp']
        exact ih h2
  · rw [if_neg h]
    have hall : ∀ p ∈ m, (p.1 == k) = false := by
      intro p hp
      cases hb : (p.1 == k)
      · rfl
      · exact absurd (List.any_eq_true.mpr ⟨p, hp, hb⟩) h
    unfold mapLookup
    rw [find?_append_of_none _ _ _ (List.find?_eq_none.mpr (fun p hp => by simp [hall p hp]))]
    rw [List.find?_cons]
    simp

/-- C7 counterexample: arming campaign 7 for one future time and then
re-arming it for another leaves TWO armed cron jobs for the campaign — the
`Map.set` replaces only the map entry, the first job is never stopped and
will still fire — contradicting the claim that at most one armed dispatch
exists per campaign and that the earlier arm no longer fires. -/
theorem rearmLeavesOldJobArmed :
    (armedJobsFor exSched2 7).length = 2 ∧
      ¬ ((armedJobsFor exSched2 7).length ≤ 1) ∧
      mapLookup exSched2.scheduledJobs 7 = some 1 := by
  refine ⟨by decide, by decide, by decide⟩

/-- C7 (amended): `scheduleAt` with a target at or before the current time
dispatches immediately and arms nothing; with a future target it creates
exactly one cron job (which the fire callback stops after its single run)
and maps the campaign to it; calling it again for the same campaign
replaces the map entry — the map points to the newest job — but the
previously armed job is not stopped and remains armed. -/
theorem scheduleAtBehavior (st : SchedState) (now t1 t2 : JsDate) (cid : Nat)
    (h1 : jsLe t1 now = false) (h2 : jsLe t2 now = false)
    (hjobs : ∀ j ∈ st.jobs, j.id < st.nextJobId) :
    (∀ target : JsDate, jsLe target now = true →
        scheduleAt st now target cid = (st, ScheduleEffect.dispatchedNow)) ∧
      (scheduleAt st now t1 cid).1.jobs =
        st.jobs ++ [⟨st.nextJobId, cid, t1.minute, t1.hour, t1.day, t1.month + 1, false⟩] ∧
      (scheduleAt st now t1 cid).2 = ScheduleEffect.armed st.nextJobId ∧
      mapLookup (scheduleAt st now t1 cid).1.scheduledJobs cid = some st.nextJobId ∧
      mapLookup (scheduleAt (scheduleAt st now t1 cid).1 now t2 cid).1.scheduledJobs cid =
        some (st.nextJobId + 1) ∧
      ((scheduleAt (scheduleAt st now t1 cid).1 now t2 cid).1.jobs.filter
          fun j => j.id == st.nextJobId && !j.stopped).length = 1 := by
  refine ⟨?_, ?_, ?_, ?_, ?_, ?_⟩
  · intro target ht
    unfold scheduleAt
    rw [if_pos ht]
  · unfold scheduleAt
    rw [if_neg (by rw [h1]; exact Bool.false_ne_true)]
  · unfold scheduleAt
    rw [if_neg (by rw [h1]; exact Bool.false_ne_true)]
  · unfold scheduleAt
    rw [if_neg (by rw [h1]; exact Bool.false_ne_true)]
    exact mapLookup_mapSet st.scheduledJobs cid st.nextJobId
  · unfold scheduleAt
    rw [if_neg (by rw [h2]; exact Bool.false_ne_true)]
    rw [if_neg (by rw [h1]; exact Bool.false_ne_true)]
    exact mapLookup_mapSet _ cid _
  · unfold scheduleAt
    rw [if_neg (by rw [h2]; exact Bool.false_ne_true)]
    rw [if_neg (by rw [h1]; exact Bool.false_ne_true)]
    rw [List.filter_append, List.filter_append]
    have hold : st.jobs.filter (fun j => j.id == st.nextJobId && !j.stopped) = [] := by
      rw [List.filter_eq_nil_iff]
      intro j hj
      have : (j.id == st.nextJobId) = false :=
        beq_eq_false_iff_ne.mpr (Nat.ne_of_lt (hjobs j hj))
      simp [this]
    rw [hold]
    simp

theorem scheduleAtBehaviorWitness :
    (scheduleAt exSched0 exNow exT1 7).1.jobs =
        exSched0.jobs ++ [⟨exSched0.nextJobId, 7, exT1.minute, exT1.hour, exT1.day,
          exT1.month + 1, false⟩] ∧
      (scheduleAt exSched0 exNow exT1 7).2 = ScheduleEffect.armed exSched0.nextJobId ∧
      mapLookup (scheduleAt exSched0 exNow exT1 7).1.scheduledJobs 7 =
        some exSched0.nextJobId ∧
      mapLookup (scheduleAt (scheduleAt exSched0 exNow exT1 7).1 exNow exT2 7).1.scheduledJobs
          7 = some (exSched0.nextJobId + 1) ∧
      ((scheduleAt (scheduleAt exSched0 exNow exT1 7).1 exNow exT2 7).1.jobs.filter
          fun j => j.id == exSched0.nextJobId && !j.stopped).length = 1 :=
  (scheduleAtBehavior exSched0 exNow exT1 exT2 7 (by decide) (by decide)
    (by intro j hj; simp [exSched0] at hj)).2

/-- C6 counterexample: the server.js executor (`sendCampaignNotifications`)
sets a one-shot campaign's final status to `'sent'`, not `'completed'` as
the claim states: dispatching the fixture scheduled campaign through it
leaves status `'sent'`. -/
theorem serverOneShotStatusSent :
    findCampaign exServerRun.1 10 = some { exCampaign with status := strSent } ∧
      strSent ≠ strCompleted := by
  refine ⟨by decide, by decide⟩

/-- C6 (amended): after a successful dispatch the scheduler.js executor
sets the campaign's status to `finalStatusFor` it — `'active'` when the
campaign is recurring, `'completed'` otherwise; the server.js executor
leaves a recurring campaign's row untouched and sets a non-recurring
campaign's status to `'sent'` (not `'completed'`). -/
theorem executorFinalStatus :
    (∀ (db : Db) (env : Nat → SubOutcome) (today cid : Nat) (c : Campaign) (site : Site),
        findCampaign db cid = some c → findSite db c.siteId = some site →
        vapidValid site = true →
        okFindCampaign cid (sendCampaign db env today cid) =
          some (some { c with status := finalStatusFor c })) ∧
      (∀ (db : Db) (env : Nat → SubOutcome) (today : Nat) (c : Campaign) (c0 : Campaign),
        findCampaign db c.id = some c0 →
        findCampaign (sendCampaignNotifications db env today c).1 c.id =
          some (if c.deliveryType == strRecurring then c0
                else { c0 with status := strSent })) := by
  constructor
  · intro db env today cid c site hc hs hv
    rw [sendCampaign_ok db env today cid c site hc hs hv]
    simp only [okFindCampaign, Except.toOption, Option.map_some']
    congr 1
    unfold findCampaign
    rw [(updateCampaignStats_preserves _ today cid).1]
    show (setCampaignStatus (dispatchFold db env today cid c).db.campaigns cid
        (finalStatusFor c)).find? (fun x => x.id == cid) = _
    rw [(dispatchFold_preserves db env today cid c).1]
    exact find_setCampaignStatus db.campaigns cid (finalStatusFor c) c hc
  · intro db env today c c0 h0
    unfold sendCampaignNotifications
    by_cases hrec : (c.deliveryType == strRecurring) = true
    · simp only [hrec, if_true]
      unfold findCampaign
      rw [(serverFold_preserves db env today c).1]
      exact h0
    · have hrec' : (c.deliveryType == strRecurring) = false := by
        cases hb : (c.deliveryType == strRecurring)
        · rfl
        · exact absurd hb hrec
      simp only [hrec', Bool.false_eq_true, if_false]
      unfold findCampaign
      show (setCampaignStatus (serverFold db env today c).db.campaigns c.id
          strSent).find? (fun x => x.id == c.id) = _
      rw [(serverFold_preserves db env today c).1]
      exact find_setCampaignStatus db.campaigns c.id strSent c0 h0

theorem executorFinalStatusWitness :
    okFindCampaign 10 (sendCampaign exDb exEnv 0 10) =
      some (some { exCampaign with status := finalStatusFor exCampaign }) :=
  executorFinalStatus.1 exDb exEnv 0 10 exCampaign exSite (by decide) (by decide) (by decide)

/-- C4 counterexample: the server.js path sends first and only inserts a
delivery row afterwards, directly in its terminal state: its dispatch trace
has push attempts with no preceding `queued` insert, and the store ends up
with no `queued` row at all — contradicting the claim that no send attempt
occurs without a previously created queued row. -/
theorem serverSendWithoutQueuedRow :
    queuedBeforePushOk exServerRun.2.2 [] = false ∧
      hasPushEv exServerRun.2.2 = true ∧
      queuedRowsOf exServerRun.1 = [] := by
  refine ⟨by decide, by decide, by decide⟩

/-- C4 (amended): in the scheduler.js dispatch path every push attempt for
a subscriber is preceded by that subscriber's `queued` delivery-row insert
— unconditionally, for every per-subscriber outcome environment: if the
insert fails the push is never attempted — and, when the inserts succeed,
every terminal delivery-row write follows that subscriber's push attempt;
the server.js path violates the queued-row ordering, per the
counterexample. -/
theorem queuedRowOrdering (db : Db) (env : Nat → SubOutcome) (today cid : Nat)
    (tr : List Ev) (htr : okTrace (sendCampaign db env today cid) = some tr) :
    queuedBeforePushOk tr [] = true ∧
      ((∀ sid, (env sid).insertOk = true) → terminalAfterPushOk tr [] = true) := by
  cases hc : findCampaign db cid with
  | none =>
    rw [sendCampaign_noCampaign db env today cid hc] at htr
    simp [okTrace, Except.toOption] at htr
  | some c =>
    cases hs : findSite db c.siteId with
    | none =>
      rw [sendCampaign_noSite db env today cid c hc hs] at htr
      simp [okTrace, Except.toOption] at htr
    | some site =>
      cases hv : vapidValid site with
      | false =>
        rw [sendCampaign_badVapid db env today cid c site hc hs hv] at htr
        simp [okTrace, Except.toOption] at htr
      | true =>
        rw [sendCampaign_ok db env today cid c site hc hs hv] at htr
        simp only [okTrace, Except.toOption, Option.map_some', Option.some.injEq] at htr
        subst htr
        constructor
        · apply queuedBeforePushOk_setStatus
          rw [dispatchFold_trace]
          exact queuedBeforePushOk_join env _ []
        · intro hins
          apply terminalAfterPushOk_setStatus
          rw [dispatchFold_trace]
          exact terminalAfterPushOk_join env _ hins []

theorem queuedRowOrderingWitness :
    queuedBeforePushOk [Ev.insertQueued 1, Ev.pushAttempt 1, Ev.updateSent 1,
        Ev.insertQueued 2, Ev.pushAttempt 2, Ev.updateFailed 2, Ev.deactivate 2,
        Ev.setStatus 10 strCompleted] [] = true ∧
      terminalAfterPushOk [Ev.insertQueued 1, Ev.pushAttempt 1, Ev.updateSent 1,
        Ev.insertQueued 2, Ev.pushAttempt 2, Ev.updateFailed 2, Ev.deactivate 2,
        Ev.setStatus 10 strCompleted] [] = true :=
  ⟨(queuedRowOrdering exDb exEnv 0 10
      [Ev.insertQueued 1, Ev.pushAttempt 1, Ev.updateSent 1, Ev.insertQueued 2,
        Ev.pushAttempt 2, Ev.updateFailed 2, Ev.deactivate 2, Ev.setStatus 10 strCompleted]
      (by decide)).1,
   (queuedRowOrdering exDb exEnv 0 10
      [Ev.insertQueued 1, Ev.pushAttempt 1, Ev.updateSent 1, Ev.insertQueued 2,
        Ev.pushAttempt 2, Ev.updateFailed 2, Ev.deactivate 2, Ev.setStatus 10 strCompleted]
      (by decide)).2
    (by
      intro sid
      unfold exEnv
      by_cases h : (sid == 2) = true
      · rw [if_pos h]
      · rw [if_neg h])⟩

/-- C5: the scheduler-path dispatch `sendCampaign` fails with NotFound
exactly when the campaign or its joined site row is missing and with a
configuration error exactly when the site's VAPID credentials are invalid;
whether it succeeds is independent of every per-subscriber outcome (an
individual subscriber's push failure never aborts the dispatch); and the
server-path dispatch returns the `{success, failed, total}` record with
`success + failed = total`, `total` being the resolved active subscriber
count. -/
theorem dispatchErrorContract :
    (∀ (db : Db) (env env2 : Nat → SubOutcome) (today today2 cid : Nat),
        (sendCampaign db env today cid).isOk = (sendCampaign db env2 today2 cid).isOk) ∧
      (∀ (db : Db) (env : Nat → SubOutcome) (today cid : Nat),
        (sendCampaign db env today cid = Except.error SendErr.campaignNotFound ↔
          findCampaign db cid = none ∨
            ∃ c, findCampaign db cid = some c ∧ findSite db c.siteId = none) ∧
        (sendCampaign db env today cid = Except.error SendErr.vapidConfigError ↔
          ∃ c site, findCampaign db cid = some c ∧ findSite db c.siteId = some site ∧
            vapidValid site = false)) ∧
      (∀ (db : Db) (env : Nat → SubOutcome) (today : Nat) (c : Campaign),
        (sendCampaignNotifications db env today c).2.1.success +
            (sendCampaignNotifications db env today c).2.1.failed =
          (sendCampaignNotifications db env today c).2.1.total ∧
        (sendCampaignNotifications db env today c).2.1.total =
          (serverTargets db c).length) := by
  refine ⟨?_, ?_, ?_⟩
  · intro db env env2 today today2 cid
    cases hc : findCampaign db cid with
    | none =>
      rw [sendCampaign_noCampaign db env today cid hc,
        sendCampaign_noCampaign db env2 today2 cid hc]
    | some c =>
      cases hs : findSite db c.siteId with
      | none =>
        rw [sendCampaign_noSite db env today cid c hc hs,
          sendCampaign_noSite db env2 today2 cid c hc hs]
      | some site =>
        cases hv : vapidValid site with
        | false =>
          rw [sendCampaign_badVapid db env today cid c site hc hs hv,
            sendCampaign_badVapid db env2 today2 cid c site hc hs hv]
        | true =>
          rw [sendCampaign_ok db env today cid c site hc hs hv,
            sendCampaign_ok db env2 today2 cid c site hc hs hv]
          rfl
  · intro db env today cid
    cases hc : findCampaign db cid with
    | none =>
      rw [sendCampaign_noCampaign db env today cid hc]
      constructor
      · simp
      · simp
    | some c =>
      cases hs : findSite db c.siteId with
      | none =>
        rw [sendCampaign_noSite db env today cid c hc hs]
        constructor
        · simp [hs]
        · simp [hs]
      | some site =>
        cases hv : vapidValid site with
        | false =>
          rw [sendCampaign_badVapid db env today cid c site hc hs hv]
          constructor
          · simp [hs]
          · simp [hs, hv]
        | true =>
          rw [sendCampaign_ok db env today cid c site hc hs hv]
          constructor
          · simp [hs]
          · simp [hs, hv]
  · intro db env today c
    unfold sendCampaignNotifications
    by_cases hrec : (c.deliveryType == strRecurring) = true
    · simp only [hrec, if_true]
      exact ⟨serverFold_counts db env today c, by trivial⟩
    · have hrec' : (c.deliveryType == strRecurring) = false := by
        cases hb : (c.deliveryType == strRecurring)
        · rfl
        · exact absurd hb hrec
      simp only [hrec', Bool.false_eq_true, if_false]
      exact ⟨serverFold_counts db env today c, by trivial⟩

/-- C10: every dispatch counts each resolved subscriber exactly once —
the scheduler path's reported `successCount + failureCount` equals the
number of resolved active target subscribers for every per-subscriber
outcome environment (send attempts and delivery writes may fail
arbitrarily), and the server path's returned counts satisfy
`success + failed = total` with `total` the resolved active subscriber
count. -/
theorem dispatchCountsPartition :
    (∀ (db : Db) (env : Nat → SubOutcome) (today cid : Nat) (c : Campaign) (site : Site),
        findCampaign db cid = some c → findSite db c.siteId = some site →
        vapidValid site = true →
        okCountsSum (sendCampaign db env today cid) =
          some (resolveTargets db c).length) ∧
      (∀ (db : Db) (env : Nat → SubOutcome) (today : Nat) (c : Campaign),
        (sendCampaignNotifications db env today c).2.1.success +
            (sendCampaignNotifications db env today c).2.1.failed =
          (sendCampaignNotifications db env today c).2.1.total ∧
        (sendCampaignNotifications db env today c).2.1.total =
          (serverTargets db c).length) := by
  constructor
  · intro db env today cid c site hc hs hv
    rw [sendCampaign_ok db env today cid c site hc hs hv]
    simp only [okCountsSum, Except.toOption, Option.map_some']
    rw [dispatchFold_counts db env today cid c]
  · intro db env today c
    unfold sendCampaignNotifications
    by_cases hrec : (c.deliveryType == strRecurring) = true
    · simp only [hrec, if_true]
      exact ⟨serverFold_counts db env today c, by trivial⟩
    · have hrec' : (c.deliveryType == strRecurring) = false := by
        cases hb : (c.deliveryType == strRecurring)
        · rfl
        · exact absurd hb hrec
      simp only [hrec', Bool.false_eq_true, if_false]
      exact ⟨serverFold_counts db env today c, by trivial⟩

theorem dispatchCountsPartitionWitness :
    okCountsSum (sendCampaign exDb exEnv 0 10) =
      some (resolveTargets exDb exCampaign).length :=
  dispatchCountsPartition.1 exDb exEnv 0 10 exCampaign exSite (by decide) (by decide)
    (by decide)

theorem dispatchFold_spec (db : Db) (env : Nat → SubOutcome) (today cid : Nat) (c : Campaign)
    (henv : ∀ s ∈ resolveTargets db c,
      (env s.id).insertOk = true ∧ (env s.id).sentUpdateOk = true)
    (hnodup : ((resolveTargets db c).map Subscriber.id).Nodup)
    (hfresh : ∀ d ∈ db.deliveries, (d.campaignId == cid) = false)
    (hids : ∀ d ∈ db.deliveries, d.id < db.nextDeliveryId) :
    (dispatchFold db env today cid c).db.deliveries =
        db.deliveries ++ expectedRows env today cid db.nextDeliveryId (resolveTargets db c) ∧
      (dispatchFold db env today cid c).db.subscribers =
        deactivateMany db.subscribers (ids410 env (resolveTargets db c)) ∧
      (dispatchFold db env today cid c).successCount =
        ((resolveTargets db c).filter fun s => !(pushFailed (env s.id).push)).length ∧
      (dispatchFold db env today cid c).failureCount =
        ((resolveTargets db c).filter fun s => pushFailed (env s.id).push).length := by
  unfold dispatchFold
  rw [chunks50_foldl (processSub env today cid) (resolveTargets db c) ⟨db, 0, 0, []⟩]
  have h := foldl_processSub_spec env today cid (resolveTargets db c) ⟨db, 0, 0, []⟩ henv
    hnodup (fun d hd s _ => by simp [hfresh d hd]) hids
  obtain ⟨h1, h2, h3, h4, h5⟩ := h
  exact ⟨h1, h2, by simpa using h4, by simpa using h5⟩

/-- C2 counterexample: dispatching the fixture campaign to 2 subscribers of
which exactly 1 fails with statusCode 410 reports `failureCount = 1`
(M = 1), yet the refreshed daily stats row holds `failed_count = 0`, not
M: `updateCampaignStats` counts only rows with `sent_at` on the current
date, and failed deliveries never receive a `sent_at`. -/
theorem statsFailedCountCounterexample :
    okCounts exSchedRun = some (1, 1) ∧
      okStatsFailedCount 10 0 exSchedRun = some (some 0) ∧
      ¬ okStatsFailedCount 10 0 exSchedRun = some (some 1) := by
  refine ⟨by decide, by decide, by decide⟩

/-- C2 (amended): dispatching a campaign (fresh for deliveries and today's
stats) to N resolved active subscribers of which exactly M fail with a
410 transport error deactivates exactly those M subscribers, leaves N
delivery rows for the campaign, and reports counts (N-M, M); but after the
stats refresh the daily stats row exists only when at least one delivery
succeeded and then carries sent_count = N-M and failed_count = 0 — not M —
because failed deliveries never receive a `sent_at` and the refresh counts
only rows with `sent_at` on the current date. -/
theorem sendCampaignWith410Outcomes (db : Db) (env : Nat → SubOutcome) (today cid : Nat)
    (c : Campaign) (site : Site)
    (hc : findCampaign db cid = some c) (hs : findSite db c.siteId = some site)
    (hv : vapidValid site = true)
    (hfresh : ∀ d ∈ db.deliveries, (d.campaignId == cid) = false)
    (hids : ∀ d ∈ db.deliveries, d.id < db.nextDeliveryId)
    (hnodup : ((resolveTargets db c).map Subscriber.id).Nodup)
    (hstats : ∀ r ∈ db.stats, (r.campaignId == cid && r.date == today) = false)
    (henv : ∀ s ∈ resolveTargets db c,
      (env s.id).insertOk = true ∧ (env s.id).sentUpdateOk = true ∧
        ((env s.id).push = PushOutcome.ok ∨ is410 (env s.id).push = true)) :
    okCounts (sendCampaign db env today cid) =
        some ((resolveTargets db c).length -
            ((resolveTargets db c).filter fun s => pushFailed (env s.id).push).length,
          ((resolveTargets db c).filter fun s => pushFailed (env s.id).push).length) ∧
      okSubscribers (sendCampaign db env today cid) =
        some (deactivateMany db.subscribers
          (((resolveTargets db c).filter fun s => pushFailed (env s.id).push).map
            Subscriber.id)) ∧
      okDeliveryCountFor cid (sendCampaign db env today cid) =
        some (resolveTargets db c).length ∧
      okStatsFor cid today (sendCampaign db env today cid) =
        some (if ((resolveTargets db c).filter fun s => pushFailed (env s.id).push).length <
              (resolveTargets db c).length
          then some ⟨cid, today,
            (resolveTargets db c).length -
              ((resolveTargets db c).filter fun s => pushFailed (env s.id).push).length,
            0, 0, 0, none⟩
          else none) := by
  have henv2 : ∀ s ∈ resolveTargets db c,
      (env s.id).insertOk = true ∧ (env s.id).sentUpdateOk = true :=
    fun s hs' => ⟨(henv s hs').1, (henv s hs').2.1⟩
  obtain ⟨Fdel, Fsub, Fsc, Ffc⟩ := dispatchFold_spec db env today cid c henv2 hnodup
    hfresh hids
  have hcnt := length_filter_not (fun s => pushFailed (env s.id).push) (resolveTargets db c)
  have hpoint : ∀ s ∈ resolveTargets db c,
      is410 (env s.id).push = pushFailed (env s.id).push := by
    intro s hs'
    rcases (henv s hs').2.2 with hok | h410
    · rw [hok]
      rfl
    · rw [h410]
      cases hp : (env s.id).push with
      | ok =>
        rw [hp] at h410
        simp [is410] at h410
      | err code m => rfl
  rw [sendCampaign_ok db env today cid c site hc hs hv]
  set D2 : Db := { (dispatchFold db env today cid c).db with
    campaigns := setCampaignStatus (dispatchFold db env today cid c).db.campaigns cid
      (finalStatusFor c) } with hD2
  have hdel2 : D2.deliveries =
      db.deliveries ++ expectedRows env today cid db.nextDeliveryId (resolveTargets db c) :=
    Fdel
  have hsub2 : D2.subscribers =
      deactivateMany db.subscribers (ids410 env (resolveTargets db c)) := Fsub
  have hst2 : ∀ r ∈ D2.stats, (r.campaignId == cid && r.date == today) = false := by
    intro r hr
    have hr2 : r ∈ (dispatchFold db env today cid c).db.stats := hr
    rw [(dispatchFold_preserves db env today cid c).2.1] at hr2
    exact hstats r hr2
  refine ⟨?_, ?_, ?_, ?_⟩
  · simp only [okCounts, Except.toOption, Option.map_some', Option.some.injEq,
      Prod.mk.injEq]
    refine ⟨?_, Ffc⟩
    rw [Fsc]
    omega
  · simp only [okSubscribers, Except.toOption, Option.map_some', Option.some.injEq]
    rw [(updateCampaignStats_preserves D2 today cid).2.2]
    rw [hsub2]
    have hids410 : ids410 env (resolveTargets db c) =
        ((resolveTargets db c).filter fun s => pushFailed (env s.id).push).map
          Subscriber.id := by
      unfold ids410
      rw [filter_congr_mem _ _ _ hpoint]
    rw [hids410]
  · simp only [okDeliveryCountFor, Except.toOption, Option.map_some', Option.some.injEq]
    rw [(updateCampaignStats_preserves D2 today cid).2.1]
    rw [hdel2, List.filter_append]
    have hdbnil : db.deliveries.filter (fun d => d.campaignId == cid) = [] :=
      List.filter_eq_nil_iff.mpr (fun d hd => by simp [hfresh d hd])
    have heq : (expectedRows env today cid db.nextDeliveryId
          (resolveTargets db c)).filter (fun d => d.campaignId == cid) =
        expectedRows env today cid db.nextDeliveryId (resolveTargets db c) :=
      List.filter_eq_self.mpr (fun d hd => by
        have hcamp := (expectedRows_mem_shape env today cid (resolveTargets db c)
          db.nextDeliveryId d hd).1
        simp [hcamp])
    rw [hdbnil, heq]
    simp [expectedRows_length]
  · simp only [okStatsFor, Except.toOption, Option.map_some', Option.some.injEq]
    rw [updateCampaignStats_find D2 today cid hst2]
    have hdbnilT : db.deliveries.filter
        (fun d => d.campaignId == cid && d.sentAt == some today) = [] :=
      List.filter_eq_nil_iff.mpr (fun d hd => by simp [hfresh d hd])
    rw [hdel2, List.filter_append, hdbnilT, List.nil_append]
    have hRlen := expectedRows_today_filter_len env today cid (resolveTargets db c)
      db.nextDeliveryId
    have hallsent : ∀ d ∈ (expectedRows env today cid db.nextDeliveryId
          (resolveTargets db c)).filter
          (fun d => d.campaignId == cid && d.sentAt == some today),
        d.status = DeliveryStatus.sent := by
      intro d hd
      obtain ⟨hmem, hp⟩ := List.mem_filter.mp hd
      obtain ⟨-, hshape⟩ := expectedRows_mem_shape env today cid (resolveTargets db c)
        db.nextDeliveryId d hmem
      rcases hshape with ⟨hsent, -⟩ | ⟨-, hnone⟩
      · exact hsent
      · exfalso
        simp [hnone] at hp
    have hRsent : ((expectedRows env today cid db.nextDeliveryId
          (resolveTargets db c)).filter
          (fun d => d.campaignId == cid && d.sentAt == some today)).filter
          (fun d => d.status == DeliveryStatus.sent) =
        (expectedRows env today cid db.nextDeliveryId (resolveTargets db c)).filter
          (fun d => d.campaignId == cid && d.sentAt == some today) :=
      List.filter_eq_self.mpr (fun d hd => by simp [hallsent d hd])
    have hRfail : ((expectedRows env today cid db.nextDeliveryId
          (resolveTargets db c)).filter
          (fun d => d.campaignId == cid && d.sentAt == some today)).filter
          (fun d => d.status == DeliveryStatus.failed) = [] :=
      List.filter_eq_nil_iff.mpr (fun d hd => by simp [hallsent d hd])
    have hRclick : ((expectedRows env today cid db.nextDeliveryId
          (resolveTargets db c)).filter
          (fun d => d.campaignId == cid && d.sentAt == some today)).filter
          (fun d => d.status == DeliveryStatus.clicked) = [] :=
      List.filter_eq_nil_iff.mpr (fun d hd => by simp [hallsent d hd])
    rw [hRsent, hRfail, hRclick]
    by_cases hMN : ((resolveTargets db c).filter
        fun s => pushFailed (env s.id).push).length < (resolveTargets db c).length
    · have hpos : 0 < ((expectedRows env today cid db.nextDeliveryId
          (resolveTargets db c)).filter
          (fun d => d.campaignId == cid && d.sentAt == some today)).length := by
        rw [hRlen]
        omega
      have hne : (expectedRows env today cid db.nextDeliveryId
          (resolveTargets db c)).filter
          (fun d => d.campaignId == cid && d.sentAt == some today) ≠ [] := by
        intro hnil
        rw [hnil] at hpos
        simp at hpos
      have hE : ((expectedRows env today cid db.nextDeliveryId
          (resolveTargets db c)).filter
          (fun d => d.campaignId == cid && d.sentAt == some today)).isEmpty = false := by
        cases hEE : ((expectedRows env today cid db.nextDeliveryId
            (resolveTargets db c)).filter
            (fun d => d.campaignId == cid && d.sentAt == some today)).isEmpty
        · rfl
        · exact absurd (List.isEmpty_iff.mp hEE) hne
      rw [hE]
      simp only [Bool.false_eq_true, if_false, if_pos hMN]
      have hlen : ((expectedRows env today cid db.nextDeliveryId
          (resolveTargets db c)).filter
          (fun d => d.campaignId == cid && d.sentAt == some today)).length =
          (resolveTargets db c).length - ((resolveTargets db c).filter
            fun s => pushFailed (env s.id).push).length := by
        rw [hRlen]
        omega
      rw [hlen]
      simp
    · have hzero : ((expectedRows env today cid db.nextDeliveryId
          (resolveTargets db c)).filter
          (fun d => d.campaignId == cid && d.sentAt == some today)).length = 0 := by
        rw [hRlen]
        omega
      have hnil := List.length_eq_zero.mp hzero
      rw [hnil]
      simp only [List.isEmpty_nil, if_true, if_neg hMN]

theorem sendCampaignWith410OutcomesWitness :
    okCounts (sendCampaign exDb exEnv 0 10) =
        some ((resolveTargets exDb exCampaign).length -
            ((resolveTargets exDb exCampaign).filter
              fun s => pushFailed (exEnv s.id).push).length,
          ((resolveTargets exDb exCampaign).filter
            fun s => pushFailed (exEnv s.id).push).length) ∧
      okSubscribers (sendCampaign exDb exEnv 0 10) =
        some (deactivateMany exDb.subscribers
          (((resolveTargets exDb exCampaign).filter
            fun s => pushFailed (exEnv s.id).push).map Subscriber.id)) ∧
      okDeliveryCountFor 10 (sendCampaign exDb exEnv 0 10) =
        some (resolveTargets exDb exCampaign).length ∧
      okStatsFor 10 0 (sendCampaign exDb exEnv 0 10) =
        some (if ((resolveTargets exDb exCampaign).filter
              fun s => pushFailed (exEnv s.id).push).length <
            (resolveTargets exDb exCampaign).length
          then some ⟨10, 0,
            (resolveTargets exDb exCampaign).length -
              ((resolveTargets exDb exCampaign).filter
                fun s => pushFailed (exEnv s.id).push).length,
            0, 0, 0, none⟩
          else none) :=
  sendCampaignWith410Outcomes exDb exEnv 0 10 exCampaign exSite (by decide) (by decide)
    (by decide) (by decide) (by decide) (by decide) (by decide) (by decide)
